import Mathlib

/-!
# MsSQL-Server-nodejs-connection: a shallow embedding of app.js, examples.js and setup.js

The scripts of the repository are straight-line asynchronous functions over the
`mssql/msnodesqlv8` client.  Each function is embedded as a program of the
monad `M`, an exception monad over an explicit `World` (the database, the open
transaction, the console and the trace of driver calls).  The driver and the
server are outside the repository; they are modelled here:

* every driver call (`connect`, `query`, `execute`, `begin`, `commit`,
  `rollback`, `close`) consumes one `Fate` that decides whether the call fails,
  or returns with an empty recordset; a world with no fate left is one in which
  the driver makes no call fail;
* each SQL text of the source is one constructor of `Stmt`, with the meaning
  `Db.exec` gives it on a database of the two tables `info` and `users` and the
  stored procedures;
* a transaction works on a private copy of the database that replaces the
  committed one at `commit` and is discarded at `rollback` and `close`;
* a parameter bound as `sql.VarChar(n)` is converted to the code page of the
  database and cut to `n` bytes, never in the middle of a character (the driver
  declares a `varchar(n)` variable and assigns the value to it);
* `LIKE` compares characters as the collation of the database compares them.
-/

namespace MsSql

/-! ## Values -/

/-- One column value of a result row. -/
inductive Cell where
  | int (n : Int)
  | text (s : String)
  | date (t : Nat)
  | null
  deriving DecidableEq, Repr

/-- A result row: a mapping from column name to value, in column order. -/
abbrev Row := List (String × Cell)

/-- A recordset: the ordered rows a statement returns. -/
abbrev Recordset := List Row

/-- The driver calls of the source. -/
inductive Call where
  | connect
  | query
  | execute
  | begin
  | commit
  | rollback
  | close
  deriving DecidableEq, Repr

/-- What a catch block can receive: a failed driver call, an error raised by the
server while running a statement, or the TypeError of reading a property of
`undefined`. -/
inductive Err where
  | driver (c : Call)
  | sql (msg : String)
  | typeError (msg : String)
  deriving DecidableEq, Repr

/-- The JavaScript values the scripts pass to the console or return. -/
inductive Js where
  | undefined
  | num (n : Int)
  | str (s : String)
  | cell (c : Cell)
  | row (r : Row)
  | rows (rs : Recordset)
  | err (e : Err)
  | errMessage (e : Err)
  deriving DecidableEq, Repr

/-- One console call. -/
inductive Out where
  | log (args : List Js)
  | error (args : List Js)
  | table (rs : Recordset)
  deriving DecidableEq, Repr

/-! ## The database -/

/-- A row of table `info`: `id INT PRIMARY KEY IDENTITY(1,1)`, `name VARCHAR(50) NOT NULL`. -/
structure InfoRow where
  id : Int
  name : String
  deriving DecidableEq, Repr

/-- A row of table `users`: `id`, `name`, `email VARCHAR(100)` (nullable),
`created_date DATETIME DEFAULT GETDATE()`. -/
structure UserRow where
  id : Int
  name : String
  email : Option String
  created_date : Nat
  deriving DecidableEq, Repr

/-- A table with an identity column: its rows in storage order and the next
identity value. -/
structure Table (ρ : Type) where
  rows : List ρ
  nextId : Int
  deriving DecidableEq, Repr

/-- The body of a stored procedure: the one the source creates, or any other text. -/
inductive ProcBody where
  | infoByNameLike
  | other (src : String)
  deriving DecidableEq, Repr

/-- The persistent state: the two tables (absent or present), the stored
procedures by name, the collation, the code page and the server clock read by
`GETDATE()`.

The collation is the table of the characters it does not compare by themselves,
each with the character it is compared as (a collation that ignores case lists
every capital letter with its small letter; a binary collation lists nothing).
The code page is the table of the characters beyond ASCII that a `VARCHAR` value
can hold, each with the number of bytes it takes; an ASCII character takes one
byte in every code page, and any other character is stored as `?`. -/
structure Db where
  info : Option (Table InfoRow)
  users : Option (Table UserRow)
  procs : List (String × ProcBody)
  collation : List (Char × Char)
  codePage : List (Char × Nat)
  now : Nat
  deriving DecidableEq, Repr

/-- The row `SELECT *` returns for a row of `info`. -/
def InfoRow.toRow (r : InfoRow) : Row :=
  [("id", .int r.id), ("name", .text r.name)]

/-- The cell of a nullable text column. -/
def optText : Option String → Cell
  | some s => .text s
  | none => .null

/-- The row `SELECT *` returns for a row of `users`. -/
def UserRow.toRow (r : UserRow) : Row :=
  [("id", .int r.id), ("name", .text r.name), ("email", optText r.email),
   ("created_date", .date r.created_date)]

/-! ## LIKE patterns -/

/-- One element of a LIKE pattern. -/
inductive Pat where
  | any
  | one
  | lit (c : Char)
  | cls (neg : Bool) (ranges : List (Char × Char))
  deriving DecidableEq, Repr

/-- The items between `[` and `]`: `a-b` is a range, any other character stands
for itself. -/
def parseRanges : List Char → List (Char × Char)
  | a :: '-' :: b :: rest => (a, b) :: parseRanges rest
  | a :: rest => (a, a) :: parseRanges rest
  | [] => []

/-- Reads a LIKE pattern with the fuel of its length.  `%` is any run of
characters, `_` any one character, `[...]` one character of a set (`[^...]` of
its complement); a `[` with no closing `]` makes a pattern that matches nothing
(`none`). -/
def parsePatFuel : Nat → List Char → Option (List Pat)
  | 0, _ => some []
  | _ + 1, [] => some []
  | n + 1, '%' :: rest => (parsePatFuel n rest).map (Pat.any :: ·)
  | n + 1, '_' :: rest => (parsePatFuel n rest).map (Pat.one :: ·)
  | n + 1, '[' :: rest =>
    let body := rest.takeWhile (· != ']')
    match rest.dropWhile (· != ']') with
    | [] => none
    | _ :: after =>
      let item :=
        match body with
        | '^' :: items => Pat.cls true (parseRanges items)
        | items => Pat.cls false (parseRanges items)
      (parsePatFuel n after).map (item :: ·)
  | n + 1, c :: rest => (parsePatFuel n rest).map (Pat.lit c :: ·)

/-- Reads a LIKE pattern. -/
def parsePat (p : List Char) : Option (List Pat) :=
  parsePatFuel p.length p

/-- The character a character is compared as under the collation. -/
def collKey (col : List (Char × Char)) (c : Char) : Char :=
  match col.lookup c with
  | some k => k
  | none => c

/-- Equality of two characters under the collation. -/
def ceq (col : List (Char × Char)) (a b : Char) : Bool :=
  collKey col a == collKey col b

/-- Order of two characters under the collation, used by ranges. -/
def cle (col : List (Char × Char)) (a b : Char) : Bool :=
  (collKey col a).toNat ≤ (collKey col b).toNat

/-- Whether a parsed pattern matches the whole subject. -/
def likeMatch (col : List (Char × Char)) : List Pat → List Char → Bool
  | [], s => s.isEmpty
  | .any :: ps, s => s.tails.any (likeMatch col ps)
  | .one :: ps, _ :: t => likeMatch col ps t
  | .lit a :: ps, c :: t => ceq col a c && likeMatch col ps t
  | .cls neg rs :: ps, c :: t =>
    (rs.any (fun r => cle col r.1 c && cle col c r.2) != neg) && likeMatch col ps t
  | _ :: _, [] => false

/-- The predicate `subject LIKE pattern`. -/
def sqlLike (col : List (Char × Char)) (pattern subject : String) : Bool :=
  match parsePat pattern.data with
  | some ps => likeMatch col ps subject.data
  | none => false

/-! ## Statements -/

/-- The two tables. -/
inductive Tbl where
  | info
  | users
  deriving DecidableEq, Repr

/-- The SQL texts of the source, one constructor each (with the table, column
alias or row count as argument where two texts differ only there). -/
inductive Stmt where
  /-- `SELECT TOP n * FROM t` (app.js 6, setup.js 83 and 87). -/
  | selectTop (n : Nat) (t : Tbl)
  /-- `SELECT * FROM info` (examples.js 11). -/
  | selectAllInfo
  /-- `SELECT * FROM info WHERE id = @id` (examples.js 30). -/
  | selectInfoById
  /-- `INSERT INTO info (name) VALUES (@name); SELECT SCOPE_IDENTITY() AS id;` (examples.js 53). -/
  | insertInfoScopeIdentity
  /-- `UPDATE info SET name = @name WHERE id = @id; SELECT @@ROWCOUNT AS affected;` (examples.js 74). -/
  | updateInfoRowcount
  /-- `DELETE FROM info WHERE id = @id; SELECT @@ROWCOUNT AS affected;` (examples.js 97). -/
  | deleteInfoRowcount
  /-- `SELECT * FROM info WHERE name LIKE @searchTerm` (examples.js 120). -/
  | selectInfoLike
  /-- `SELECT COUNT(*) AS col FROM t` (examples.js 139, setup.js 75 and 78). -/
  | countAs (col : String) (t : Tbl)
  /-- `INSERT INTO info (name) VALUES (@name)` (examples.js 164 and 169). -/
  | insertInfo
  /-- `SELECT TOP 5 i.id, i.name AS info_name, u.name AS user_name, u.email
  FROM info i FULL OUTER JOIN users u ON i.id = u.id` (examples.js 195). -/
  | joinTop5
  /-- `IF OBJECT_ID(name, P) IS NOT NULL DROP PROCEDURE name` (examples.js 223). -/
  | dropProcIfExists (name : String)
  /-- `CREATE PROCEDURE GetInfoByName @name VARCHAR(50) AS BEGIN
  SELECT * FROM info WHERE name LIKE % + @name + % END` (examples.js 228). -/
  | createProcGetInfoByName
  /-- `IF OBJECT_ID(t, U) IS NOT NULL DROP TABLE t` (setup.js 13 and 45). -/
  | dropTableIfExists (t : Tbl)
  /-- `CREATE TABLE t (...)` (setup.js 18 and 50). -/
  | createTable (t : Tbl)
  /-- `INSERT INTO info (name) VALUES (n1), (n2), ...` (setup.js 28). -/
  | insertInfoValues (names : List String)
  /-- `INSERT INTO users (name, email) VALUES (n1, e1), ...` (setup.js 62). -/
  | insertUsersValues (rows : List (String × String))
  deriving DecidableEq, Repr

/-- The declared type of a parameter: `sql.Int` or `sql.VarChar(n)`. -/
inductive SqlType where
  | int
  | varChar (n : Nat)
  deriving DecidableEq, Repr

/-- The bound parameters of a request: name, declared type and value. -/
abbrev Params := List (String × SqlType × Cell)

/-- The number of bytes a character takes in a `VARCHAR` value: one for an ASCII
character, the width the code page gives for a character it holds, and one for
the `?` that stands for any other character. -/
def byteWidth (cp : List (Char × Nat)) (c : Char) : Nat :=
  if c.toNat < 128 then 1
  else
    match cp.lookup c with
    | some w => max 1 w
    | none => 1

/-- The character as a `VARCHAR` value holds it: itself when it is ASCII or in
the code page, `?` otherwise. -/
def toCodePage (cp : List (Char × Nat)) (c : Char) : Char :=
  if c.toNat < 128 then c
  else
    match cp.lookup c with
    | some _ => c
    | none => '?'

/-- The number of bytes of a text in the code page. -/
def byteLength (cp : List (Char × Nat)) (l : List Char) : Nat :=
  (l.map (byteWidth cp)).sum

/-- The longest run of leading characters that fits in `n` bytes. -/
def cutBytes (cp : List (Char × Nat)) : Nat → List Char → List Char
  | _, [] => []
  | n, c :: rest =>
    if byteWidth cp c ≤ n then c :: cutBytes cp (n - byteWidth cp c) rest else []

/-- The text as a `varchar(n)` variable holds it: converted to the code page and
cut to `n` bytes. -/
def toVarChar (cp : List (Char × Nat)) (n : Nat) (s : String) : String :=
  ⟨cutBytes cp n (s.data.map (toCodePage cp))⟩

/-- The value a parameter holds once assigned to a variable of its declared
type (the driver declares the variable and assigns the value to it). -/
def castParam (cp : List (Char × Nat)) : SqlType → Cell → Cell
  | .varChar n, .text s => .text (toVarChar cp n s)
  | _, c => c

/-- The request method `.input(name, type, value)`. -/
def input (name : String) (ty : SqlType) (value : Cell) (ps : Params) : Params :=
  ps ++ [(name, ty, value)]

/-- The integer parameter of that name. -/
def paramInt (cp : List (Char × Nat)) (ps : Params) (name : String) : Except String Int :=
  match ps.lookup name with
  | some (ty, v) =>
    match castParam cp ty v with
    | .int n => .ok n
    | _ => .error ("Conversion failed for the variable @" ++ name)
  | none => .error ("Must declare the scalar variable @" ++ name)

/-- The text parameter of that name. -/
def paramText (cp : List (Char × Nat)) (ps : Params) (name : String) : Except String String :=
  match ps.lookup name with
  | some (ty, v) =>
    match castParam cp ty v with
    | .text s => .ok s
    | _ => .error ("Conversion failed for the variable @" ++ name)
  | none => .error ("Must declare the scalar variable @" ++ name)

/-- The table `info`, or the error of naming an absent table. -/
def Db.infoTable (db : Db) : Except String (Table InfoRow) :=
  match db.info with
  | some t => .ok t
  | none => .error "Invalid object name info"

/-- The table `users`, or the error of naming an absent table. -/
def Db.usersTable (db : Db) : Except String (Table UserRow) :=
  match db.users with
  | some t => .ok t
  | none => .error "Invalid object name users"

/-- Appends rows of the given names to `info`, each with the next identity
value.  The statement fails as a whole when a name exceeds the 50 bytes of the
column or an identity value is already a key. -/
def insertInfoRows (cp : List (Char × Nat)) :
    List String → Table InfoRow → Except String (Table InfoRow)
  | [], t => .ok t
  | name :: rest, t =>
    if byteLength cp name.data > 50 then .error "String or binary data would be truncated"
    else if t.rows.any (fun r => r.id == t.nextId) then
      .error "Violation of PRIMARY KEY constraint"
    else insertInfoRows cp rest ⟨t.rows ++ [⟨t.nextId, name⟩], t.nextId + 1⟩

/-- Appends rows of the given names and emails to `users`, each with the next
identity value and the current clock as `created_date`. -/
def insertUserRows (cp : List (Char × Nat)) (now : Nat) :
    List (String × String) → Table UserRow → Except String (Table UserRow)
  | [], t => .ok t
  | (name, email) :: rest, t =>
    if byteLength cp name.data > 50 ∨ byteLength cp email.data > 100 then
      .error "String or binary data would be truncated"
    else if t.rows.any (fun r => r.id == t.nextId) then
      .error "Violation of PRIMARY KEY constraint"
    else
      insertUserRows cp now rest ⟨t.rows ++ [⟨t.nextId, name, some email, now⟩], t.nextId + 1⟩

/-- The rows of the full outer join of `info` and `users` on `id`, in the four
columns the source selects. -/
def joinRows (is : List InfoRow) (us : List UserRow) : Recordset :=
  (is.flatMap fun i =>
    match us.filter (fun u => u.id == i.id) with
    | [] => [[("id", .int i.id), ("info_name", .text i.name), ("user_name", .null),
              ("email", .null)]]
    | ms => ms.map fun u =>
        [("id", .int i.id), ("info_name", .text i.name), ("user_name", .text u.name),
         ("email", optText u.email)])
  ++ (us.filter fun u => !(is.any fun i => i.id == u.id)).map fun u =>
        [("id", .null), ("info_name", .null), ("user_name", .text u.name),
         ("email", optText u.email)]

/-- The rows of `info` whose name matches the pattern. -/
def likeRows (col : List (Char × Char)) (pattern : String) (rows : List InfoRow) :
    List InfoRow :=
  rows.filter fun r => sqlLike col pattern r.name

/-- The meaning of a statement: the recordset it returns and the database it
leaves, or the message of the error the server raises (the database is then
unchanged). -/
def Db.exec (db : Db) (ps : Params) : Stmt → Except String (Recordset × Db)
  | .selectTop n .info => do
    let t ← db.infoTable
    pure ((t.rows.take n).map InfoRow.toRow, db)
  | .selectTop n .users => do
    let t ← db.usersTable
    pure ((t.rows.take n).map UserRow.toRow, db)
  | .selectAllInfo => do
    let t ← db.infoTable
    pure (t.rows.map InfoRow.toRow, db)
  | .selectInfoById => do
    let id ← paramInt db.codePage ps "id"
    let t ← db.infoTable
    pure ((t.rows.filter fun r => r.id == id).map InfoRow.toRow, db)
  | .insertInfoScopeIdentity => do
    let name ← paramText db.codePage ps "name"
    let t ← db.infoTable
    let t' ← insertInfoRows db.codePage [name] t
    pure ([[("id", .int t.nextId)]], { db with info := some t' })
  | .updateInfoRowcount => do
    let id ← paramInt db.codePage ps "id"
    let name ← paramText db.codePage ps "name"
    let t ← db.infoTable
    if byteLength db.codePage name.data > 50 then
      throw "String or binary data would be truncated"
    let rows := t.rows.map fun r => if r.id == id then { r with name := name } else r
    let affected := (t.rows.filter fun r => r.id == id).length
    pure ([[("affected", .int affected)]], { db with info := some { t with rows := rows } })
  | .deleteInfoRowcount => do
    let id ← paramInt db.codePage ps "id"
    let t ← db.infoTable
    let rows := t.rows.filter fun r => !(r.id == id)
    let affected := (t.rows.filter fun r => r.id == id).length
    pure ([[("affected", .int affected)]], { db with info := some { t with rows := rows } })
  | .selectInfoLike => do
    let pattern ← paramText db.codePage ps "searchTerm"
    let t ← db.infoTable
    pure ((likeRows db.collation pattern t.rows).map InfoRow.toRow, db)
  | .countAs col .info => do
    let t ← db.infoTable
    pure ([[(col, .int t.rows.length)]], db)
  | .countAs col .users => do
    let t ← db.usersTable
    pure ([[(col, .int t.rows.length)]], db)
  | .insertInfo => do
    let name ← paramText db.codePage ps "name"
    let t ← db.infoTable
    let t' ← insertInfoRows db.codePage [name] t
    pure ([], { db with info := some t' })
  | .joinTop5 => do
    let i ← db.infoTable
    let u ← db.usersTable
    pure ((joinRows i.rows u.rows).take 5, db)
  | .dropProcIfExists name =>
    pure ([], { db with procs := db.procs.filter fun p => !(p.1 == name) })
  | .createProcGetInfoByName =>
    if db.procs.any (fun p => p.1 == "GetInfoByName") then
      throw "There is already an object named GetInfoByName in the database"
    else pure ([], { db with procs := db.procs ++ [("GetInfoByName", .infoByNameLike)] })
  | .dropTableIfExists .info => pure ([], { db with info := none })
  | .dropTableIfExists .users => pure ([], { db with users := none })
  | .createTable .info =>
    match db.info with
    | some _ => throw "There is already an object named info in the database"
    | none => pure ([], { db with info := some ⟨[], 1⟩ })
  | .createTable .users =>
    match db.users with
    | some _ => throw "There is already an object named users in the database"
    | none => pure ([], { db with users := some ⟨[], 1⟩ })
  | .insertInfoValues names => do
    let t ← db.infoTable
    let t' ← insertInfoRows db.codePage names t
    pure ([], { db with info := some t' })
  | .insertUsersValues rows => do
    let t ← db.usersTable
    let t' ← insertUserRows db.codePage db.now rows t
    pure ([], { db with users := some t' })

/-- The meaning of `execute(name)`: runs the stored procedure of that name. -/
def Db.execProc (db : Db) (ps : Params) (name : String) : Except String (Recordset × Db) :=
  match db.procs.lookup name with
  | some .infoByNameLike => do
    let n ← paramText db.codePage ps "name"
    let t ← db.infoTable
    pure ((likeRows db.collation ("%" ++ n ++ "%") t.rows).map InfoRow.toRow, db)
  | some (.other _) => .error "unknown procedure body"
  | none => .error ("Could not find stored procedure " ++ name)

/-! ## The world and the monad of the scripts -/

/-- How one driver call goes: it succeeds, it fails, or (for `query` and
`execute`) it succeeds and delivers an empty recordset. -/
inductive Fate where
  | ok
  | fail
  | empty
  deriving DecidableEq, Repr

/-- One driver call of an execution and whether it returned without throwing. -/
structure Event where
  call : Call
  ok : Bool
  deriving DecidableEq, Repr

/-- Everything an execution reads or changes: the committed database, the
private copy of an open transaction, the fates of the driver calls still to
come (a call with no fate left succeeds), the console and the driver calls made
so far. -/
structure World where
  db : Db
  tx : Option Db
  fates : List Fate
  console : List Out
  trace : List Event
  deriving DecidableEq, Repr

/-- The world at the start of a script. -/
def World.init (db : Db) (fates : List Fate) : World :=
  ⟨db, none, fates, [], []⟩

/-- An asynchronous computation of the scripts: it ends with a value or with a
thrown error, and leaves a world either way. -/
def M (α : Type) : Type := World → Except Err α × World

/-- Returning a value. -/
def M.pure {α : Type} (a : α) : M α := fun w => (.ok a, w)

/-- Sequencing: `await m` and then the rest; a thrown error skips the rest. -/
def M.bind {α β : Type} (m : M α) (f : α → M β) : M β := fun w =>
  match m w with
  | (.ok a, w') => f a w'
  | (.error e, w') => (.error e, w')

/-- Throwing. -/
def M.throw {α : Type} (e : Err) : M α := fun w => (.error e, w)

/-- The block `try body catch (err) handler`. -/
def M.tryCatch {α : Type} (body : M α) (handler : Err → M α) : M α := fun w =>
  match body w with
  | (.ok a, w') => (.ok a, w')
  | (.error e, w') => handler e w'

instance : Monad M where
  pure := M.pure
  bind := M.bind

/-- The call `console.log(args)`. -/
def consoleLog (args : List Js) : M Unit := fun w =>
  (.ok (), { w with console := w.console ++ [.log args] })

/-- The call `console.error(args)`. -/
def consoleError (args : List Js) : M Unit := fun w =>
  (.ok (), { w with console := w.console ++ [.error args] })

/-- The call `console.table(rs)`. -/
def consoleTable (rs : Recordset) : M Unit := fun w =>
  (.ok (), { w with console := w.console ++ [.table rs] })

/-- Takes the fate of the next driver call. -/
def nextFate (w : World) : Fate × World :=
  match w.fates with
  | [] => (.ok, w)
  | f :: rest => (f, { w with fates := rest })

/-- Records a driver call and its outcome in the trace. -/
def record (c : Call) (ok : Bool) (w : World) : World :=
  { w with trace := w.trace ++ [⟨c, ok⟩] }

/-- The call `sql.connect(config)`. -/
def connect : M Unit := fun w =>
  match nextFate w with
  | (.fail, w') => (.error (.driver .connect), record .connect false w')
  | (_, w') => (.ok (), record .connect true w')

/-- The call `pool.close()`: an open transaction is abandoned. -/
def close : M Unit := fun w =>
  match nextFate w with
  | (.fail, w') => (.error (.driver .close), record .close false w')
  | (_, w') => (.ok (), record .close true { w' with tx := none })

/-- The call `transaction.begin()`. -/
def begin : M Unit := fun w =>
  match nextFate w with
  | (.fail, w') => (.error (.driver .begin), record .begin false w')
  | (_, w') => (.ok (), record .begin true { w' with tx := some w'.db })

/-- The call `transaction.commit()`: the private copy becomes the database. -/
def commit : M Unit := fun w =>
  match nextFate w with
  | (.fail, w') => (.error (.driver .commit), record .commit false w')
  | (_, w') =>
    match w'.tx with
    | some d => (.ok (), record .commit true { w' with db := d, tx := none })
    | none => (.error (.sql "Transaction has not begun"), record .commit false w')

/-- The call `transaction.rollback()`: the private copy is discarded. -/
def rollback : M Unit := fun w =>
  match nextFate w with
  | (.fail, w') => (.error (.driver .rollback), record .rollback false w')
  | (_, w') =>
    match w'.tx with
    | some _ => (.ok (), record .rollback true { w' with tx := none })
    | none => (.error (.sql "Transaction has not begun"), record .rollback false w')

/-- The recordset a call delivers under its fate. -/
def deliver : Fate → Recordset → Recordset
  | .empty, _ => []
  | _, rs => rs

/-- The call `pool.request()...query(stmt)`: the statement runs on the database. -/
def query (stmt : Stmt) (ps : Params) : M Recordset := fun w =>
  match nextFate w with
  | (.fail, w') => (.error (.driver .query), record .query false w')
  | (f, w') =>
    match w'.db.exec ps stmt with
    | .ok (rs, d) => (.ok (deliver f rs), record .query true { w' with db := d })
    | .error msg => (.error (.sql msg), record .query false w')

/-- The call `new sql.Request(transaction)...query(stmt)`: the statement runs on
the private copy of the transaction. -/
def queryTx (stmt : Stmt) (ps : Params) : M Recordset := fun w =>
  match nextFate w with
  | (.fail, w') => (.error (.driver .query), record .query false w')
  | (f, w') =>
    match w'.tx with
    | none => (.error (.sql "Transaction has not begun"), record .query false w')
    | some t =>
      match t.exec ps stmt with
      | .ok (rs, d) => (.ok (deliver f rs), record .query true { w' with tx := some d })
      | .error msg => (.error (.sql msg), record .query false w')

/-- The call `pool.request()...execute(name)`. -/
def execute (name : String) (ps : Params) : M Recordset := fun w =>
  match nextFate w with
  | (.fail, w') => (.error (.driver .execute), record .execute false w')
  | (f, w') =>
    match w'.db.execProc ps name with
    | .ok (rs, d) => (.ok (deliver f rs), record .execute true { w' with db := d })
    | .error msg => (.error (.sql msg), record .execute false w')

/-- The expression `recordset[0].col`: a TypeError when the recordset is empty,
`undefined` when the row has no such column. -/
def firstField (rs : Recordset) (col : String) : M Js :=
  match rs with
  | [] => M.throw (.typeError ("Cannot read properties of undefined (reading " ++ col ++ ")"))
  | r :: _ =>
    match r.lookup col with
    | some c => M.pure (.cell c)
    | none => M.pure .undefined

/-- The expression `recordset[0]`. -/
def firstRow : Recordset → Js
  | [] => .undefined
  | r :: _ => .row r

/-- The comparison `v > 0`. -/
def Js.gtZero : Js → Bool
  | .num n => 0 < n
  | .cell (.int n) => 0 < n
  | _ => false

/-- The interpolation of a value in a template literal. -/
def Js.show : Js → String
  | .undefined => "undefined"
  | .num n => toString n
  | .str s => s
  | .cell (.int n) => toString n
  | .cell (.text s) => s
  | .cell (.date t) => toString t
  | .cell .null => "null"
  | _ => "[object Object]"

/-! ## app.js -/

/-- The function `connectAndQuery` of app.js. -/
def connectAndQuery : M Js :=
  M.tryCatch (do
      connect
      let result ← query (.selectTop 10 .info) []
      consoleLog [.rows result]
      close
      pure .undefined)
    (fun err => do
      consoleError [.str "Database connection failed:", .err err]
      pure .undefined)

/-! ## examples.js -/

/-- Example 1, `getAllRecords`. -/
def getAllRecords : M Js :=
  M.tryCatch (do
      consoleLog [.str "\n=== Example 1: Get All Records ==="]
      connect
      let result ← query .selectAllInfo []
      consoleLog [.str "Total records:", .num result.length]
      consoleLog [.rows result]
      close
      pure .undefined)
    (fun err => do
      consoleError [.str "Query failed:", .errMessage err]
      pure .undefined)

/-- Example 2, `getRecordById`. -/
def getRecordById (id : Int) : M Js :=
  M.tryCatch (do
      consoleLog [.str "\n=== Example 2: Get Record By ID ==="]
      connect
      let result ← query .selectInfoById (input "id" .int (.int id) [])
      if result.length > 0 then
        consoleLog [.str "Found record:", firstRow result]
      else
        consoleLog [.str "No record found with id:", .num id]
      close
      pure .undefined)
    (fun err => do
      consoleError [.str "Query failed:", .errMessage err]
      pure .undefined)

/-- Example 3, `insertRecord`. -/
def insertRecord (name : String) : M Js :=
  M.tryCatch (do
      consoleLog [.str "\n=== Example 3: Insert New Record ==="]
      connect
      let result ← query .insertInfoScopeIdentity (input "name" (.varChar 50) (.text name) [])
      let id ← firstField result "id"
      consoleLog [.str "Successfully inserted! New record ID:", id]
      close
      firstField result "id")
    (fun err => do
      consoleError [.str "Insert failed:", .errMessage err]
      pure .undefined)

/-- Example 4, `updateRecord`. -/
def updateRecord (id : Int) (name : String) : M Js :=
  M.tryCatch (do
      consoleLog [.str "\n=== Example 4: Update Record ==="]
      connect
      let result ← query .updateInfoRowcount
        (input "name" (.varChar 50) (.text name) (input "id" .int (.int id) []))
      let affected ← firstField result "affected"
      if affected.gtZero then
        consoleLog [.str ("Successfully updated record ID " ++ toString id ++ " to \"" ++ name ++ "\"")]
      else
        consoleLog [.str "No record found with id:", .num id]
      close
      pure .undefined)
    (fun err => do
      consoleError [.str "Update failed:", .errMessage err]
      pure .undefined)

/-- Example 5, `deleteRecord`. -/
def deleteRecord (id : Int) : M Js :=
  M.tryCatch (do
      consoleLog [.str "\n=== Example 5: Delete Record ==="]
      connect
      let result ← query .deleteInfoRowcount (input "id" .int (.int id) [])
      let affected ← firstField result "affected"
      if affected.gtZero then
        consoleLog [.str "Successfully deleted record ID:", .num id]
      else
        consoleLog [.str "No record found with id:", .num id]
      close
      pure .undefined)
    (fun err => do
      consoleError [.str "Delete failed:", .errMessage err]
      pure .undefined)

/-- Example 6, `searchByName`. -/
def searchByName (searchTerm : String) : M Js :=
  M.tryCatch (do
      consoleLog [.str "\n=== Example 6: Search Records ==="]
      connect
      let result ← query .selectInfoLike
        (input "searchTerm" (.varChar 50) (.text ("%" ++ searchTerm ++ "%")) [])
      consoleLog [.str ("Found " ++ toString result.length ++ " record(s) matching \""
        ++ searchTerm ++ "\":")]
      consoleLog [.rows result]
      close
      pure .undefined)
    (fun err => do
      consoleError [.str "Search failed:", .errMessage err]
      pure .undefined)

/-- Example 7, `countRecords`. -/
def countRecords : M Js :=
  M.tryCatch (do
      consoleLog [.str "\n=== Example 7: Count Records ==="]
      connect
      let result ← query (.countAs "total" .info) []
      let total ← firstField result "total"
      consoleLog [.str "Total records in info table:", total]
      close
      pure .undefined)
    (fun err => do
      consoleError [.str "Count failed:", .errMessage err]
      pure .undefined)

/-- Example 8, `transactionExample`. -/
def transactionExample : M Js :=
  M.tryCatch (do
      consoleLog [.str "\n=== Example 8: Transaction Example ==="]
      connect
      begin
      M.tryCatch (do
          let _ ← queryTx .insertInfo (input "name" (.varChar 50) (.text "Transaction User 1") [])
          let _ ← queryTx .insertInfo (input "name" (.varChar 50) (.text "Transaction User 2") [])
          commit
          consoleLog [.str "Transaction completed successfully!"])
        (fun err => do
          rollback
          consoleError [.str "Transaction rolled back due to error:", .errMessage err])
      close
      pure .undefined)
    (fun err => do
      consoleError [.str "Transaction failed:", .errMessage err]
      pure .undefined)

/-- Example 9, `joinExample`. -/
def joinExample : M Js :=
  M.tryCatch (do
      consoleLog [.str "\n=== Example 9: Join Query Example ==="]
      connect
      let result ← query .joinTop5 []
      consoleLog [.str "Join result:"]
      consoleLog [.rows result]
      close
      pure .undefined)
    (fun err => do
      consoleError [.str "Join query failed:", .errMessage err]
      pure .undefined)

/-- Example 10, `storedProcedureExample`. -/
def storedProcedureExample : M Js :=
  M.tryCatch (do
      consoleLog [.str "\n=== Example 10: Stored Procedure Example ==="]
      connect
      let _ ← query (.dropProcIfExists "GetInfoByName") []
      let _ ← query .createProcGetInfoByName []
      let result ← execute "GetInfoByName" (input "name" (.varChar 50) (.text "John") [])
      consoleLog [.str "Stored procedure result:"]
      consoleLog [.rows result]
      close
      pure .undefined)
    (fun err => do
      consoleError [.str "Stored procedure failed:", .errMessage err]
      pure .undefined)

/-- The driver `runAllExamples` of examples.js. -/
def runAllExamples : M Js := do
  consoleLog [.str "========================================"]
  consoleLog [.str "SQL Server Connection Examples"]
  consoleLog [.str "========================================"]
  let _ ← getAllRecords
  let _ ← getRecordById 1
  let _ ← countRecords
  let _ ← searchByName "John"
  consoleLog [.str "\n========================================"]
  consoleLog [.str "All examples completed!"]
  consoleLog [.str "========================================\n"]
  pure .undefined

/-! ## setup.js -/

/-- The ten names setup.js inserts into `info`. -/
def infoSeed : List String :=
  ["John Doe", "Jane Smith", "Mike Johnson", "Sarah Williams", "Robert Brown",
   "Emily Davis", "Michael Wilson", "Jessica Martinez", "David Anderson", "Jennifer Taylor"]

/-- The five names and emails setup.js inserts into `users`. -/
def usersSeed : List (String × String) :=
  [("Alice Johnson", "alice.j@example.com"), ("Bob Smith", "bob.smith@example.com"),
   ("Charlie Brown", "charlie.b@example.com"), ("Diana Prince", "diana.p@example.com"),
   ("Edward Norton", "edward.n@example.com")]

/-- The function `setupDatabase` of setup.js. -/
def setupDatabase : M Js := do
  consoleLog [.str "Starting database setup...\n"]
  M.tryCatch (do
      connect
      consoleLog [.str "✓ Connected to database successfully\n"]
      consoleLog [.str "Creating \"info\" table..."]
      let _ ← query (.dropTableIfExists .info) []
      let _ ← query (.createTable .info) []
      consoleLog [.str "✓ \"info\" table created\n"]
      consoleLog [.str "Inserting sample data into \"info\" table..."]
      let _ ← query (.insertInfoValues infoSeed) []
      consoleLog [.str "✓ Inserted 10 records into \"info\" table\n"]
      consoleLog [.str "Creating \"users\" table..."]
      let _ ← query (.dropTableIfExists .users) []
      let _ ← query (.createTable .users) []
      consoleLog [.str "✓ \"users\" table created\n"]
      consoleLog [.str "Inserting sample data into \"users\" table..."]
      let _ ← query (.insertUsersValues usersSeed) []
      consoleLog [.str "✓ Inserted 5 records into \"users\" table\n"]
      consoleLog [.str "Verifying data...\n"]
      let infoCount ← query (.countAs "count" .info) []
      let n ← firstField infoCount "count"
      consoleLog [.str ("✓ \"info\" table has " ++ n.show ++ " records")]
      let usersCount ← query (.countAs "count" .users) []
      let m ← firstField usersCount "count"
      consoleLog [.str ("✓ \"users\" table has " ++ m.show ++ " records\n")]
      consoleLog [.str "Sample data from \"info\" table:"]
      let infoSample ← query (.selectTop 5 .info) []
      consoleTable infoSample
      consoleLog [.str "\nSample data from \"users\" table:"]
      let usersSample ← query (.selectTop 5 .users) []
      consoleTable usersSample
      close
      consoleLog [.str "\n========================================"]
      consoleLog [.str "✓ Database setup completed successfully!"]
      consoleLog [.str "========================================"]
      consoleLog [.str "\nYou can now run:"]
      consoleLog [.str "  npm start        - Run basic query"]
      consoleLog [.str "  npm run examples - Run all examples\n"]
      pure .undefined)
    (fun err => do
      consoleError [.str "\n✗ Database setup failed:", .errMessage err]
      consoleError [.str "\nPlease check:"]
      consoleError [.str "  1. SQL Server is running"]
      consoleError [.str "  2. Database \"users\" exists"]
      consoleError [.str "  3. You have permissions to create tables"]
      consoleError [.str "  4. Connection settings in dbconfig.js are correct\n"]
      pure .undefined)

/-! ## Observations on a world -/

/-- The errors the catch blocks reported on the console. -/
def loggedErrors : List Out → List Err
  | [] => []
  | .error args :: rest =>
    (args.filterMap fun | .err e => some e | .errMessage e => some e | _ => none)
      ++ loggedErrors rest
  | _ :: rest => loggedErrors rest

/-- The number of driver calls of one kind in a trace. -/
def calls (c : Call) (t : List Event) : Nat :=
  (t.filter fun e => e.call == c).length

/-- The number of driver calls of one kind in a trace that returned. -/
def returned (c : Call) (t : List Event) : Nat :=
  (t.filter fun e => e.call == c && e.ok).length

/-! ## Specification vocabulary -/

/-- The program leaves every world in relation `R` to the world it started in,
whether it returns or throws. -/
def Keeps {α : Type} (R : World → World → Prop) (m : M α) : Prop :=
  ∀ w, R w (m w).2

/-- Every error the program throws satisfies `G`. -/
def ThrowsOnly {α : Type} (G : Err → Prop) (m : M α) : Prop :=
  ∀ w e, (m w).1 = .error e → G e

/-- The promise of the program always resolves: no error escapes it. -/
def Resolves {α : Type} (m : M α) : Prop :=
  ∀ w, ∃ a, (m w).1 = .ok a

/-- The committed database is the same in both worlds. -/
def sameDb (w w' : World) : Prop := w'.db = w.db

/-- The catch blocks reported the same errors in both worlds. -/
def sameErrors (w w' : World) : Prop := loggedErrors w'.console = loggedErrors w.console

/-- The second world has at most `k` more reported errors than the first. -/
def moreErrors (k : Nat) (w w' : World) : Prop :=
  (loggedErrors w'.console).length ≤ (loggedErrors w.console).length + k

/-- Both worlds saw the same `close` calls and the same reported errors. -/
def sameCloses (w w' : World) : Prop :=
  (calls .close w'.trace = calls .close w.trace ∧
    returned .close w'.trace = returned .close w.trace) ∧ sameErrors w w'

/-- The console of the second world continues the console of the first. -/
def extendsConsole (w w' : World) : Prop := ∃ o, w'.console = w.console ++ o

/-- The number of driver calls other than `close` that failed. -/
def earlyFailures (t : List Event) : Nat :=
  (t.filter fun e => !(e.call == .close) && !e.ok).length

/-- The rest of a try block that still has its `close` ahead: when it returns,
`close` was called once more and returned; when it throws, no further `close`
returned, and either `close` was not reached and the error is not the one of
`close`, or `close` was called once more and the error is its own.  Whenever
`close` is reached, no driver call before it has failed.  No error is reported
meanwhile. -/
def ClosesOnce {α : Type} (k : M α) : Prop :=
  ∀ w, sameErrors w (k w).2 ∧
    match (k w).1 with
    | .ok _ =>
      calls .close (k w).2.trace = calls .close w.trace + 1 ∧
      returned .close (k w).2.trace = returned .close w.trace + 1 ∧
      earlyFailures (k w).2.trace = earlyFailures w.trace
    | .error e =>
      returned .close (k w).2.trace = returned .close w.trace ∧
      ((calls .close (k w).2.trace = calls .close w.trace ∧ e ≠ .driver .close) ∨
       (calls .close (k w).2.trace = calls .close w.trace + 1 ∧ e = .driver .close ∧
        earlyFailures (k w).2.trace = earlyFailures w.trace))

/-- A driver call of kind `c`: it leaves the console alone and adds one event of
that kind to the trace. -/
def DriverStep {α : Type} (c : Call) (m : M α) : Prop :=
  ∀ w, (m w).2.console = w.console ∧ ∃ ok, (m w).2.trace = w.trace ++ [⟨c, ok⟩]

/-- A catch block that reports the error it received and makes no driver call. -/
def Reports {α : Type} (h : Err → M α) : Prop :=
  ∀ e w, loggedErrors (h e w).2.console = loggedErrors w.console ++ [e] ∧
    (h e w).2.trace = w.trace

/-- The statements that only read. -/
def Stmt.readOnly : Stmt → Bool
  | .selectTop _ _ => true
  | .selectAllInfo => true
  | .selectInfoById => true
  | .selectInfoLike => true
  | .countAs _ _ => true
  | .joinTop5 => true
  | _ => false

/-- A function whose whole body is one try block that still has to reach its
`close`, with a catch block that reports the error. -/
def Guarded {α : Type} (f : M α) : Prop :=
  ∃ body h, f = M.tryCatch body h ∧ ClosesOnce body ∧ Reports h

/-- From a fresh world, the function calls `close` exactly when its catch block
reports no error other than the failure of `close` itself, and it calls `close`
only if every driver call before it returned. -/
def ClosesUnlessFailed {α : Type} (f : M α) : Prop :=
  ∀ db fates,
    (0 < calls .close (f (World.init db fates)).2.trace ↔
      ∀ e ∈ loggedErrors (f (World.init db fates)).2.console, e = Err.driver .close) ∧
    (0 < calls .close (f (World.init db fates)).2.trace →
      ∀ e ∈ (f (World.init db fates)).2.trace, e.call ≠ .close → e.ok = true)

/-- From a fresh world the function returns normally, having reported no error
when its `close` call returned and exactly one error otherwise. -/
def ResolvesReportingOnce {α : Type} (f : M α) : Prop :=
  ∀ db fates, (∃ v, (f (World.init db fates)).1 = .ok v) ∧
    (loggedErrors (f (World.init db fates)).2.console).length =
      if 0 < returned .close (f (World.init db fates)).2.trace then 0 else 1

/-- The world after the three heading lines of `runAllExamples`. -/
def withHeading (w : World) : World :=
  { w with console := w.console ++
      [.log [.str "========================================"],
       .log [.str "SQL Server Connection Examples"],
       .log [.str "========================================"]] }

/-- The world after the three closing lines of `runAllExamples`. -/
def withClosing (w : World) : World :=
  { w with console := w.console ++
      [.log [.str "\n========================================"],
       .log [.str "All examples completed!"],
       .log [.str "========================================\n"]] }

/-- A database with two rows in `info`, an empty `users` table and no stored
procedure, used for the concrete executions below. -/
def exampleDb : Db :=
  { info := some ⟨[⟨1, "John Doe"⟩, ⟨2, "Jane Smith"⟩], 3⟩
    users := some ⟨[], 1⟩
    procs := []
    collation := []
    codePage := []
    now := 0 }

/-- The function first prints its banner, whatever happens afterwards. -/
def Announces {α : Type} (banner : String) (f : M α) : Prop :=
  ∀ w, ∃ o, (f w).2.console = w.console ++ .log [.str banner] :: o

/-- Whether a result is a returned value. -/
def isOk {α : Type} : Except Err α → Bool
  | .ok _ => true
  | .error _ => false

/-- When the program returns, every driver call it made other than `close` has
returned. -/
def OkClean {α : Type} (m : M α) : Prop :=
  ∀ w, isOk (m w).1 = true → earlyFailures (m w).2.trace = earlyFailures w.trace

/-- The trace of the second world continues the trace of the first. -/
def extendsTrace (w w' : World) : Prop := ∃ rest, w'.trace = w.trace ++ rest

/-- The table `info` as setup.js seeds it: ten rows with ids 1 to 10. -/
def seededInfo : Table InfoRow :=
  ⟨[⟨1, "John Doe"⟩, ⟨2, "Jane Smith"⟩, ⟨3, "Mike Johnson"⟩, ⟨4, "Sarah Williams"⟩,
    ⟨5, "Robert Brown"⟩, ⟨6, "Emily Davis"⟩, ⟨7, "Michael Wilson"⟩, ⟨8, "Jessica Martinez"⟩,
    ⟨9, "David Anderson"⟩, ⟨10, "Jennifer Taylor"⟩], 11⟩

/-- The table `users` as setup.js seeds it at clock `now`: five rows with ids 1 to 5. -/
def seededUsers (now : Nat) : Table UserRow :=
  ⟨[⟨1, "Alice Johnson", some "alice.j@example.com", now⟩,
    ⟨2, "Bob Smith", some "bob.smith@example.com", now⟩,
    ⟨3, "Charlie Brown", some "charlie.b@example.com", now⟩,
    ⟨4, "Diana Prince", some "diana.p@example.com", now⟩,
    ⟨5, "Edward Norton", some "edward.n@example.com", now⟩], 6⟩

/-- A `users` table without its `created_date` column. -/
def withoutDates (t : Table UserRow) : List (Int × String × Option String) × Int :=
  (t.rows.map fun r => (r.id, r.name, r.email), t.nextId)

/-- A name of 51 ASCII characters, one byte more than `VarChar(50)` holds. -/
def longName : String := "012345678901234567890123456789012345678901234567890"

/-- A search term of 49 ASCII characters: with the two `%` around it the pattern
takes 51 bytes, one more than `VarChar(50)` holds. -/
def longTerm : String := "0123456789012345678901234567890123456789012345678"

/-- A database whose table `info` holds a name that starts with `longTerm` and a
name that does not contain it. -/
def longTermDb : Db :=
  { info := some ⟨[⟨1, "0123456789012345678901234567890123456789012345678x"⟩,
                   ⟨2, "x0123456789012345678901234567890123456789012345678"⟩], 3⟩
    users := none
    procs := []
    collation := []
    codePage := []
    now := 0 }

/-- A collation that compares every capital letter of the Latin alphabet as its
small letter. -/
def ignoringCase : List (Char × Char) :=
  [('A', 'a'), ('B', 'b'), ('C', 'c'), ('D', 'd'), ('E', 'e'), ('F', 'f'), ('G', 'g'),
   ('H', 'h'), ('I', 'i'), ('J', 'j'), ('K', 'k'), ('L', 'l'), ('M', 'm'), ('N', 'n'),
   ('O', 'o'), ('P', 'p'), ('Q', 'q'), ('R', 'r'), ('S', 's'), ('T', 't'), ('U', 'u'),
   ('V', 'v'), ('W', 'w'), ('X', 'x'), ('Y', 'y'), ('Z', 'z')]

/-- The database `exampleDb` under a collation that ignores case. -/
def exampleDbIgnoringCase : Db :=
  { exampleDb with collation := ignoringCase }

/-- A database whose table `info` holds a name with a question mark, under a code
page that holds the ASCII characters only. -/
def questionMarkDb : Db :=
  { info := some ⟨[⟨1, "Who?"⟩, ⟨2, "Jane Smith"⟩], 3⟩
    users := none
    procs := []
    collation := []
    codePage := []
    now := 0 }

/-- Whether the term occurs in the name, characters compared as the collation
compares them. -/
def occursIn (col : List (Char × Char)) (s name : String) : Bool :=
  decide (s.data.map (collKey col) <:+: name.data.map (collKey col))

/-- Whether a `varchar(n)` variable holds the text unchanged: the code page holds
every character and the text takes at most `n` bytes. -/
def fitsVarChar (cp : List (Char × Nat)) (n : Nat) (s : String) : Bool :=
  s.data.all (fun c => toCodePage cp c == c) && decide (byteLength cp s.data ≤ n)

/-- When the program returns from a world whose database satisfies `P`, the
database it leaves satisfies `Q`. -/
def OkPost {α : Type} (P Q : Db → Prop) (m : M α) : Prop :=
  ∀ w, P w.db → isOk (m w).1 = true → Q (m w).2.db

/-- The number of driver calls in a trace that failed. -/
def failedCalls (t : List Event) : Nat :=
  (t.filter fun e => !e.ok).length

/-- The number of driver calls in a trace, `rollback` apart, that failed. -/
def failures (t : List Event) : Nat :=
  (t.filter fun e => !e.ok && e.call != .rollback).length

/-- The number of errors the catch blocks have reported in a world. -/
def logged (w : World) : Nat :=
  (loggedErrors w.console).length

/-- A driver call of kind `c`: it leaves the console alone and adds to the trace
one event of that kind, which records whether the call returned. -/
def RecordedStep {α : Type} (c : Call) (m : M α) : Prop :=
  ∀ w, (m w).2.console = w.console ∧ (m w).2.trace = w.trace ++ [⟨c, isOk (m w).1⟩]

/-- The program keeps the tally of errors: when it returns it has reported one
error for each failed driver call it made, `rollback` apart; when it throws, one
of these failures is still to be reported; and it makes no call fail without a
failed call other than `rollback`. -/
def Tallied {α : Type} (m : M α) : Prop :=
  ∀ w, logged w ≤ logged (m w).2 ∧ failures w.trace ≤ failures (m w).2.trace ∧
    (failedCalls (m w).2.trace = failedCalls w.trace ∨ 0 < failures (m w).2.trace) ∧
    (isOk (m w).1 = true →
      logged (m w).2 + failures w.trace = logged w + failures (m w).2.trace) ∧
    (isOk (m w).1 = false →
      logged (m w).2 + failures w.trace + 1 = logged w + failures (m w).2.trace)

/-- A catch block entered after a failed driver call settles the tally: when it
returns it has reported the failure that was still to be reported; when it throws,
one failure is still to be reported. -/
def Settles {α : Type} (h : Err → M α) : Prop :=
  ∀ e w, 0 < failures w.trace →
    logged w ≤ logged (h e w).2 ∧ failures w.trace ≤ failures (h e w).2.trace ∧
    (isOk (h e w).1 = true →
      logged (h e w).2 + failures w.trace = logged w + failures (h e w).2.trace + 1) ∧
    (isOk (h e w).1 = false →
      logged (h e w).2 + failures w.trace = logged w + failures (h e w).2.trace)

/-! # Theorems -/

/-! ## The monad -/

@[simp] theorem bind_def {α β : Type} (m : M α) (f : α → M β) : (m >>= f) = M.bind m f := rfl

@[simp] theorem pure_def {α : Type} (a : α) : (pure a : M α) = M.pure a := rfl

theorem keeps_pure {α : Type} {R : World → World → Prop} (hr : ∀ w, R w w) (a : α) :
    Keeps R (M.pure a) := fun w => hr w

theorem keeps_bind {α β : Type} {R : World → World → Prop}
    (ht : ∀ a b c, R a b → R b c → R a c) {m : M α} {f : α → M β}
    (hm : Keeps R m) (hf : ∀ a, Keeps R (f a)) : Keeps R (M.bind m f) := by
  intro w
  have h1 := hm w
  unfold M.bind
  rcases h : m w with ⟨r, w'⟩
  rw [h] at h1
  cases r with
  | ok a => exact ht _ _ _ h1 (hf a w')
  | error e => exact h1

theorem keeps_tryCatch {α : Type} {R : World → World → Prop}
    (ht : ∀ a b c, R a b → R b c → R a c) {m : M α} {h : Err → M α}
    (hm : Keeps R m) (hh : ∀ e, Keeps R (h e)) : Keeps R (M.tryCatch m h) := by
  intro w
  have h1 := hm w
  unfold M.tryCatch
  rcases hw : m w with ⟨r, w'⟩
  rw [hw] at h1
  cases r with
  | ok a => exact h1
  | error e => exact ht _ _ _ h1 (hh e w')

theorem keeps_ite {α : Type} {R : World → World → Prop} {c : Prop} [Decidable c] {a b : M α}
    (ha : Keeps R a) (hb : Keeps R b) : Keeps R (if c then a else b) := by
  split
  · exact ha
  · exact hb

theorem resolves_pure {α : Type} (a : α) : Resolves (M.pure a) := fun _ => ⟨a, rfl⟩

theorem resolves_bind {α β : Type} {m : M α} {f : α → M β}
    (hm : Resolves m) (hf : ∀ a, Resolves (f a)) : Resolves (M.bind m f) := by
  intro w
  obtain ⟨a, ha⟩ := hm w
  unfold M.bind
  rcases h : m w with ⟨r, w'⟩
  rw [h] at ha
  cases r with
  | ok a => exact hf a w'
  | error e => simp at ha

theorem resolves_tryCatch {α : Type} {m : M α} {h : Err → M α}
    (hh : ∀ e, Resolves (h e)) : Resolves (M.tryCatch m h) := by
  intro w
  unfold M.tryCatch
  rcases hw : m w with ⟨r, w'⟩
  cases r with
  | ok a => exact ⟨a, rfl⟩
  | error e => exact hh e w'

theorem resolves_consoleLog (args : List Js) : Resolves (consoleLog args) := fun _ => ⟨(), rfl⟩

theorem resolves_consoleError (args : List Js) : Resolves (consoleError args) := fun _ => ⟨(), rfl⟩

/-- When the first program returns, the sequence continues from the world it left. -/
theorem bind_of_ok {α β : Type} {m : M α} {f : α → M β} {w w' : World} {a : α}
    (h : m w = (.ok a, w')) : M.bind m f w = f a w' := by
  simp [M.bind, h]

/-! ## Every function resolves -/

theorem connectAndQuery_resolves : Resolves connectAndQuery :=
  resolves_tryCatch fun _ => resolves_bind (resolves_consoleError _) fun _ => resolves_pure _

theorem getAllRecords_resolves : Resolves getAllRecords :=
  resolves_tryCatch fun _ => resolves_bind (resolves_consoleError _) fun _ => resolves_pure _

theorem getRecordById_resolves (id : Int) : Resolves (getRecordById id) :=
  resolves_tryCatch fun _ => resolves_bind (resolves_consoleError _) fun _ => resolves_pure _

theorem insertRecord_resolves (name : String) : Resolves (insertRecord name) :=
  resolves_tryCatch fun _ => resolves_bind (resolves_consoleError _) fun _ => resolves_pure _

theorem updateRecord_resolves (id : Int) (name : String) : Resolves (updateRecord id name) :=
  resolves_tryCatch fun _ => resolves_bind (resolves_consoleError _) fun _ => resolves_pure _

theorem deleteRecord_resolves (id : Int) : Resolves (deleteRecord id) :=
  resolves_tryCatch fun _ => resolves_bind (resolves_consoleError _) fun _ => resolves_pure _

theorem searchByName_resolves (s : String) : Resolves (searchByName s) :=
  resolves_tryCatch fun _ => resolves_bind (resolves_consoleError _) fun _ => resolves_pure _

theorem countRecords_resolves : Resolves countRecords :=
  resolves_tryCatch fun _ => resolves_bind (resolves_consoleError _) fun _ => resolves_pure _

theorem transactionExample_resolves : Resolves transactionExample :=
  resolves_tryCatch fun _ => resolves_bind (resolves_consoleError _) fun _ => resolves_pure _

theorem joinExample_resolves : Resolves joinExample :=
  resolves_tryCatch fun _ => resolves_bind (resolves_consoleError _) fun _ => resolves_pure _

theorem storedProcedureExample_resolves : Resolves storedProcedureExample :=
  resolves_tryCatch fun _ => resolves_bind (resolves_consoleError _) fun _ => resolves_pure _

theorem setupDatabase_resolves : Resolves setupDatabase :=
  resolves_bind (resolves_consoleLog _) fun _ =>
    resolves_tryCatch fun _ =>
      resolves_bind (resolves_consoleError _) fun _ =>
      resolves_bind (resolves_consoleError _) fun _ =>
      resolves_bind (resolves_consoleError _) fun _ =>
      resolves_bind (resolves_consoleError _) fun _ =>
      resolves_bind (resolves_consoleError _) fun _ =>
      resolves_bind (resolves_consoleError _) fun _ => resolves_pure _

/-! ## Composition of relations -/

theorem keeps_bind_comp {α β : Type} {R1 R2 R3 : World → World → Prop}
    (hc : ∀ a b c, R1 a b → R2 b c → R3 a c) (hw : ∀ a b, R1 a b → R3 a b)
    {m : M α} {f : α → M β}
    (hm : Keeps R1 m) (hf : ∀ a, Keeps R2 (f a)) : Keeps R3 (M.bind m f) := by
  intro w
  have h1 := hm w
  unfold M.bind
  rcases h : m w with ⟨r, w'⟩
  rw [h] at h1
  cases r with
  | ok a => exact hc _ _ _ h1 (hf a w')
  | error e => exact hw _ _ h1

theorem keeps_tryCatch_comp {α : Type} {R1 R2 R3 : World → World → Prop}
    (hc : ∀ a b c, R1 a b → R2 b c → R3 a c) (hw : ∀ a b, R1 a b → R3 a b)
    {m : M α} {h : Err → M α}
    (hm : Keeps R1 m) (hh : ∀ e, Keeps R2 (h e)) : Keeps R3 (M.tryCatch m h) := by
  intro w
  have h1 := hm w
  unfold M.tryCatch
  rcases hw' : m w with ⟨r, w'⟩
  rw [hw'] at h1
  cases r with
  | ok a => exact hw _ _ h1
  | error e => exact hc _ _ _ h1 (hh e w')

/-! ## The relations -/

theorem sameDb_refl (w : World) : sameDb w w := rfl

theorem sameDb_trans (a b c : World) (h1 : sameDb a b) (h2 : sameDb b c) : sameDb a c := by
  unfold sameDb at *
  rw [h2, h1]

theorem sameErrors_refl (w : World) : sameErrors w w := rfl

theorem sameErrors_trans (a b c : World) (h1 : sameErrors a b) (h2 : sameErrors b c) :
    sameErrors a c := by
  unfold sameErrors at *
  rw [h2, h1]

theorem sameCloses_refl (w : World) : sameCloses w w := ⟨⟨rfl, rfl⟩, rfl⟩

theorem sameCloses_trans (a b c : World) (h1 : sameCloses a b) (h2 : sameCloses b c) :
    sameCloses a c :=
  ⟨⟨h2.1.1.trans h1.1.1, h2.1.2.trans h1.1.2⟩, sameErrors_trans _ _ _ h1.2 h2.2⟩

theorem extendsConsole_refl (w : World) : extendsConsole w w := ⟨[], by simp⟩

theorem extendsConsole_trans (a b c : World) (h1 : extendsConsole a b)
    (h2 : extendsConsole b c) : extendsConsole a c := by
  obtain ⟨o1, h1⟩ := h1
  obtain ⟨o2, h2⟩ := h2
  exact ⟨o1 ++ o2, by rw [h2, h1, List.append_assoc]⟩

theorem moreErrors_comp (j k : Nat) (a b c : World) (h1 : moreErrors j a b)
    (h2 : moreErrors k b c) : moreErrors (j + k) a c := by
  unfold moreErrors at *
  omega

theorem moreErrors_mono {j k : Nat} (h : j ≤ k) (a b : World) (h1 : moreErrors j a b) :
    moreErrors k a b := by
  unfold moreErrors at *
  omega

theorem moreErrors_of_same (a b : World) (h : sameErrors a b) : moreErrors 0 a b := by
  unfold moreErrors sameErrors at *
  rw [h]
  omega

theorem loggedErrors_append (a b : List Out) :
    loggedErrors (a ++ b) = loggedErrors a ++ loggedErrors b := by
  induction a with
  | nil => simp [loggedErrors]
  | cons x xs ih =>
    cases x <;> simp [loggedErrors, ih]

theorem calls_append (c : Call) (a b : List Event) :
    calls c (a ++ b) = calls c a + calls c b := by
  simp [calls]

theorem returned_append (c : Call) (a b : List Event) :
    returned c (a ++ b) = returned c a + returned c b := by
  simp [returned]

/-! ## The console calls -/

theorem consoleLog_sameDb (args : List Js) : Keeps sameDb (consoleLog args) := fun _ => rfl

theorem consoleError_sameDb (args : List Js) : Keeps sameDb (consoleError args) := fun _ => rfl

theorem consoleLog_sameCloses (args : List Js) : Keeps sameCloses (consoleLog args) := by
  intro w
  simp [sameCloses, sameErrors, consoleLog, loggedErrors_append, loggedErrors]

theorem consoleTable_sameCloses (rs : Recordset) : Keeps sameCloses (consoleTable rs) := by
  intro w
  simp [sameCloses, sameErrors, consoleTable, loggedErrors_append, loggedErrors]

theorem consoleLog_sameErrors (args : List Js) : Keeps sameErrors (consoleLog args) :=
  fun w => (consoleLog_sameCloses args w).2

theorem consoleLog_extends (args : List Js) : Keeps extendsConsole (consoleLog args) :=
  fun _ => ⟨_, rfl⟩

theorem consoleError_extends (args : List Js) : Keeps extendsConsole (consoleError args) :=
  fun _ => ⟨_, rfl⟩

theorem consoleLog_throws (G : Err → Prop) (args : List Js) : ThrowsOnly G (consoleLog args) := by
  intro w e h
  simp [consoleLog] at h

theorem consoleTable_throws (G : Err → Prop) (rs : Recordset) :
    ThrowsOnly G (consoleTable rs) := by
  intro w e h
  simp [consoleTable] at h

/-! ## Reading the first row -/

theorem firstField_world (rs : Recordset) (col : String) (w : World) :
    (firstField rs col w).2 = w := by
  cases rs with
  | nil => rfl
  | cons r t =>
    simp only [firstField]
    cases List.lookup col r <;> rfl

theorem firstField_keeps {R : World → World → Prop} (hr : ∀ w, R w w) (rs : Recordset)
    (col : String) : Keeps R (firstField rs col) := by
  intro w
  rw [firstField_world]
  exact hr w

theorem firstField_throws (rs : Recordset) (col : String) :
    ThrowsOnly (· ≠ .driver .close) (firstField rs col) := by
  intro w e h
  cases rs with
  | nil =>
    simp [firstField, M.throw] at h
    rw [← h]
    simp
  | cons r t =>
    simp only [firstField] at h
    cases hl : List.lookup col r <;> simp [hl, M.pure] at h

/-! ## The driver calls -/

theorem nextFate_console (w : World) : (nextFate w).2.console = w.console := by
  unfold nextFate
  split <;> rfl

theorem nextFate_trace (w : World) : (nextFate w).2.trace = w.trace := by
  unfold nextFate
  split <;> rfl

theorem nextFate_db (w : World) : (nextFate w).2.db = w.db := by
  unfold nextFate
  split <;> rfl

theorem connect_step : DriverStep .connect connect := by
  intro w
  unfold connect
  rcases h : nextFate w with ⟨f, w'⟩
  have h1 := nextFate_console w
  have h2 := nextFate_trace w
  rw [h] at h1 h2
  cases f <;> simp_all [record]

theorem close_step : DriverStep .close close := by
  intro w
  unfold close
  rcases h : nextFate w with ⟨f, w'⟩
  have h1 := nextFate_console w
  have h2 := nextFate_trace w
  rw [h] at h1 h2
  cases f <;> simp_all [record]

theorem begin_step : DriverStep .begin begin := by
  intro w
  unfold begin
  rcases h : nextFate w with ⟨f, w'⟩
  have h1 := nextFate_console w
  have h2 := nextFate_trace w
  rw [h] at h1 h2
  cases f <;> simp_all [record]

theorem commit_step : DriverStep .commit commit := by
  intro w
  unfold commit
  rcases h : nextFate w with ⟨f, w'⟩
  have h1 := nextFate_console w
  have h2 := nextFate_trace w
  rw [h] at h1 h2
  cases f <;> cases htx : w'.tx <;> simp_all [record]

theorem rollback_step : DriverStep .rollback rollback := by
  intro w
  unfold rollback
  rcases h : nextFate w with ⟨f, w'⟩
  have h1 := nextFate_console w
  have h2 := nextFate_trace w
  rw [h] at h1 h2
  cases f <;> cases htx : w'.tx <;> simp_all [record]

theorem query_step (stmt : Stmt) (ps : Params) : DriverStep .query (query stmt ps) := by
  intro w
  unfold query
  rcases h : nextFate w with ⟨f, w'⟩
  have h1 := nextFate_console w
  have h2 := nextFate_trace w
  rw [h] at h1 h2
  cases f <;> rcases hx : w'.db.exec ps stmt with e | ⟨rs, d⟩ <;> simp_all [record]

theorem queryTx_step (stmt : Stmt) (ps : Params) : DriverStep .query (queryTx stmt ps) := by
  intro w
  unfold queryTx
  rcases h : nextFate w with ⟨f, w'⟩
  have h1 := nextFate_console w
  have h2 := nextFate_trace w
  rw [h] at h1 h2
  cases f <;> cases htx : w'.tx <;> simp_all [record] <;>
    split <;> simp_all

theorem execute_step (name : String) (ps : Params) : DriverStep .execute (execute name ps) := by
  intro w
  unfold execute
  rcases h : nextFate w with ⟨f, w'⟩
  have h1 := nextFate_console w
  have h2 := nextFate_trace w
  rw [h] at h1 h2
  cases f <;> rcases hx : w'.db.execProc ps name with e | ⟨rs, d⟩ <;> simp_all [record]

theorem driverStep_sameErrors {α : Type} {c : Call} {m : M α} (h : DriverStep c m) :
    Keeps sameErrors m := by
  intro w
  unfold MsSql.sameErrors
  rw [(h w).1]

theorem driverStep_extends {α : Type} {c : Call} {m : M α} (h : DriverStep c m) :
    Keeps extendsConsole m := by
  intro w
  exact ⟨[], by rw [(h w).1]; simp⟩

theorem driverStep_sameCloses {α : Type} {c : Call} {m : M α} (h : DriverStep c m)
    (hc : c ≠ .close) : Keeps sameCloses m := by
  intro w
  refine ⟨?_, driverStep_sameErrors h w⟩
  obtain ⟨ok, ht⟩ := (h w).2
  rw [ht, calls_append, returned_append]
  simp [calls, returned, hc]

/-! ## Statements that only read -/

theorem exec_readOnly (db : Db) (ps : Params) (stmt : Stmt) (h : stmt.readOnly = true)
    (rs : Recordset) (d : Db) (hx : db.exec ps stmt = .ok (rs, d)) : d = db := by
  cases stmt with
  | selectTop n t =>
    cases t <;> simp only [Db.exec, Db.infoTable, Db.usersTable] at hx
    · cases hi : db.info <;> simp [hi, bind, Except.bind, pure, Except.pure] at hx
      exact hx.2.symm
    · cases hi : db.users <;> simp [hi, bind, Except.bind, pure, Except.pure] at hx
      exact hx.2.symm
  | selectAllInfo =>
    simp only [Db.exec, Db.infoTable] at hx
    cases hi : db.info <;> simp [hi, bind, Except.bind, pure, Except.pure] at hx
    exact hx.2.symm
  | selectInfoById =>
    simp only [Db.exec, Db.infoTable] at hx
    cases hp : paramInt db.codePage ps "id" <;> cases hi : db.info <;>
      simp [hp, hi, bind, Except.bind, pure, Except.pure] at hx
    exact hx.2.symm
  | selectInfoLike =>
    simp only [Db.exec, Db.infoTable] at hx
    cases hp : paramText db.codePage ps "searchTerm" <;> cases hi : db.info <;>
      simp [hp, hi, bind, Except.bind, pure, Except.pure] at hx
    exact hx.2.symm
  | countAs col t =>
    cases t <;> simp only [Db.exec, Db.infoTable, Db.usersTable] at hx
    · cases hi : db.info <;> simp [hi, bind, Except.bind, pure, Except.pure] at hx
      exact hx.2.symm
    · cases hi : db.users <;> simp [hi, bind, Except.bind, pure, Except.pure] at hx
      exact hx.2.symm
  | joinTop5 =>
    simp only [Db.exec, Db.infoTable, Db.usersTable] at hx
    cases hi : db.info <;> cases hu : db.users <;>
      simp [hi, hu, bind, Except.bind, pure, Except.pure] at hx
    exact hx.2.symm
  | _ => simp [Stmt.readOnly] at h

theorem connect_sameDb : Keeps sameDb connect := by
  intro w
  unfold connect sameDb
  rcases h : nextFate w with ⟨f, w'⟩
  have h1 := nextFate_db w
  rw [h] at h1
  cases f <;> simp_all [record]

theorem close_sameDb : Keeps sameDb close := by
  intro w
  unfold close sameDb
  rcases h : nextFate w with ⟨f, w'⟩
  have h1 := nextFate_db w
  rw [h] at h1
  cases f <;> simp_all [record]

theorem query_sameDb (stmt : Stmt) (ps : Params) (hro : stmt.readOnly = true) :
    Keeps sameDb (query stmt ps) := by
  intro w
  unfold query sameDb
  rcases h : nextFate w with ⟨f, w'⟩
  have h1 := nextFate_db w
  rw [h] at h1
  cases f <;> rcases hx : w'.db.exec ps stmt with e | ⟨rs, d⟩ <;> simp_all [record] <;>
    exact exec_readOnly _ _ _ hro _ _ hx

theorem connect_throws : ThrowsOnly (· ≠ .driver .close) connect := by
  intro w e h
  unfold connect at h
  rcases hf : nextFate w with ⟨f, w'⟩
  rw [hf] at h
  cases f <;> simp at h
  simp [← h]

theorem query_throws (stmt : Stmt) (ps : Params) :
    ThrowsOnly (· ≠ .driver .close) (query stmt ps) := by
  intro w e h
  unfold query at h
  rcases hf : nextFate w with ⟨f, w'⟩
  rw [hf] at h
  cases f <;> rcases hx : w'.db.exec ps stmt with msg | ⟨rs, d⟩ <;> simp [hx] at h <;>
    simp [← h]

theorem execute_throws (name : String) (ps : Params) :
    ThrowsOnly (· ≠ .driver .close) (execute name ps) := by
  intro w e h
  unfold execute at h
  rcases hf : nextFate w with ⟨f, w'⟩
  rw [hf] at h
  cases f <;> rcases hx : w'.db.execProc ps name with msg | ⟨rs, d⟩ <;> simp [hx] at h <;>
    simp [← h]

/-! ## The catch blocks -/

/-- A catch block that reports its error with one `console.error` call. -/
theorem handler_reports (label : String) (arg : Err → Js)
    (harg : ∀ e, arg e = .err e ∨ arg e = .errMessage e) :
    Reports fun err => M.bind (consoleError [.str label, arg err]) fun _ => M.pure Js.undefined := by
  intro e w
  rcases harg e with h | h <;>
    simp [M.bind, M.pure, consoleError, loggedErrors_append, loggedErrors, h]

theorem reports_moreErrors {α : Type} {h : Err → M α} (hr : Reports h) (e : Err) :
    Keeps (moreErrors 1) (h e) := by
  intro w
  unfold MsSql.moreErrors
  rw [(hr e w).1]
  simp

/-- The catch block of `setupDatabase` reports its error once, in the first of
its six `console.error` calls. -/
theorem setupHandler_reports :
    Reports fun err =>
      M.bind (consoleError [.str "\n✗ Database setup failed:", .errMessage err]) fun _ =>
      M.bind (consoleError [.str "\nPlease check:"]) fun _ =>
      M.bind (consoleError [.str "  1. SQL Server is running"]) fun _ =>
      M.bind (consoleError [.str "  2. Database \"users\" exists"]) fun _ =>
      M.bind (consoleError [.str "  3. You have permissions to create tables"]) fun _ =>
      M.bind (consoleError [.str "  4. Connection settings in dbconfig.js are correct\n"]) fun _ =>
      M.pure Js.undefined := by
  intro e w
  simp [M.bind, M.pure, consoleError, loggedErrors_append, loggedErrors]

/-! ## Reaching `close` -/

theorem earlyFailures_append (a b : List Event) :
    earlyFailures (a ++ b) = earlyFailures a + earlyFailures b := by
  simp [earlyFailures]

theorem earlyFailures_zero (t : List Event) (h : earlyFailures t = 0) :
    ∀ e ∈ t, e.call ≠ .close → e.ok = true := by
  intro e he hc
  unfold earlyFailures at h
  rw [List.length_eq_zero, List.filter_eq_nil_iff] at h
  have := h e he
  simpa [hc] using this

theorem okClean_pure {α : Type} (a : α) : OkClean (M.pure a) := fun _ _ => rfl

theorem okClean_bind {α β : Type} {m : M α} {f : α → M β}
    (hm : OkClean m) (hf : ∀ a, OkClean (f a)) : OkClean (M.bind m f) := by
  intro w
  have h1 := hm w
  unfold M.bind
  rcases h : m w with ⟨r, w'⟩
  rw [h] at h1
  cases r with
  | ok a =>
    intro hok
    have h2 := hf a w' hok
    simp only at h1 h2 ⊢
    rw [h2, h1 rfl]
  | error e =>
    intro hok
    simp [isOk] at hok

theorem okClean_consoleLog (args : List Js) : OkClean (consoleLog args) := fun _ _ => rfl

theorem okClean_consoleTable (rs : Recordset) : OkClean (consoleTable rs) := fun _ _ => rfl

theorem okClean_firstField (rs : Recordset) (col : String) : OkClean (firstField rs col) := by
  intro w _
  rw [firstField_world]

theorem okClean_connect : OkClean connect := by
  intro w
  have h2 := nextFate_trace w
  unfold connect
  rcases hf : nextFate w with ⟨f, w'⟩
  rw [hf] at h2
  simp only at h2
  cases f <;> simp [record, earlyFailures_append, earlyFailures, h2, isOk]

theorem okClean_query (stmt : Stmt) (ps : Params) : OkClean (query stmt ps) := by
  intro w
  have h2 := nextFate_trace w
  unfold query
  rcases hf : nextFate w with ⟨f, w'⟩
  rw [hf] at h2
  simp only at h2
  cases f <;> rcases hx : w'.db.exec ps stmt with msg | ⟨rs, d⟩ <;>
    simp [record, earlyFailures_append, earlyFailures, h2, isOk, hx]

theorem okClean_execute (name : String) (ps : Params) : OkClean (execute name ps) := by
  intro w
  have h2 := nextFate_trace w
  unfold execute
  rcases hf : nextFate w with ⟨f, w'⟩
  rw [hf] at h2
  simp only at h2
  cases f <;> rcases hx : w'.db.execProc ps name with msg | ⟨rs, d⟩ <;>
    simp [record, earlyFailures_append, earlyFailures, h2, isOk, hx]

theorem close_spec (w : World) :
    sameErrors w (close w).2 ∧
    calls .close (close w).2.trace = calls .close w.trace + 1 ∧
    earlyFailures (close w).2.trace = earlyFailures w.trace ∧
    match (close w).1 with
    | .ok _ => returned .close (close w).2.trace = returned .close w.trace + 1
    | .error e => returned .close (close w).2.trace = returned .close w.trace ∧
        e = .driver .close := by
  refine ⟨driverStep_sameErrors close_step w, ?_, ?_, ?_⟩
  · obtain ⟨ok, ht⟩ := (close_step w).2
    rw [ht, calls_append]
    simp [calls]
  · obtain ⟨ok, ht⟩ := (close_step w).2
    rw [ht, earlyFailures_append]
    simp [earlyFailures]
  · have h2 := nextFate_trace w
    unfold close
    rcases hf : nextFate w with ⟨f, w'⟩
    rw [hf] at h2
    simp only at h2
    cases f <;> simp [record, returned_append, returned, h2]

theorem closesOnce_throw {α : Type} (e : Err) (he : e ≠ .driver .close) :
    ClosesOnce (M.throw e : M α) := by
  intro w
  exact ⟨rfl, rfl, Or.inl ⟨rfl, he⟩⟩

theorem closesOnce_bind_pre {α β : Type} {m : M α} {f : α → M β}
    (hk : Keeps sameCloses m) (ht : ThrowsOnly (· ≠ .driver .close) m) (ho : OkClean m)
    (hf : ∀ a, ClosesOnce (f a)) : ClosesOnce (M.bind m f) := by
  intro w
  have h1 := hk w
  have h2 := ht w
  have h5 := ho w
  unfold M.bind
  rcases h : m w with ⟨r, w'⟩
  rw [h] at h1 h2 h5
  cases r with
  | ok a =>
    have h3 := hf a w'
    have h6 := h5 rfl
    refine ⟨sameErrors_trans _ _ _ h1.2 h3.1, ?_⟩
    have h4 := h3.2
    simp only at h1 h4 h6 ⊢
    rcases hr : (f a w').1 with e | b
    · rw [hr] at h4
      simp only at h4 ⊢
      rw [h1.1.1, h1.1.2, h6] at h4
      exact h4
    · rw [hr] at h4
      simp only at h4 ⊢
      rw [h1.1.1, h1.1.2, h6] at h4
      exact h4
  | error e =>
    exact ⟨h1.2, h1.1.2, Or.inl ⟨h1.1.1, h2 e rfl⟩⟩

theorem closesOnce_close_then {β : Type} {k : Unit → M β}
    (hk : ∀ u, Keeps sameCloses (k u)) (hr : ∀ u, Resolves (k u)) (ho : ∀ u, OkClean (k u)) :
    ClosesOnce (M.bind close k) := by
  intro w
  obtain ⟨h1, h2, h7, h3⟩ := close_spec w
  unfold M.bind
  rcases h : close w with ⟨r, w'⟩
  rw [h] at h1 h2 h3 h7
  cases r with
  | ok a =>
    have h4 := hk a w'
    obtain ⟨b, hb⟩ := hr a w'
    have h8 := ho a w' (by rw [hb]; rfl)
    refine ⟨sameErrors_trans _ _ _ h1 h4.2, ?_⟩
    simp only at h2 h3 h7 ⊢
    rw [hb]
    simp only
    rw [h4.1.1, h4.1.2, h2, h3, h8, h7]
    exact ⟨rfl, rfl, rfl⟩
  | error e =>
    simp only at h2 h3 h7
    exact ⟨h1, h3.1, Or.inr ⟨h2, h3.2, h7⟩⟩

theorem closesOnce_ite {α : Type} {c : Prop} [Decidable c] {a b : M α}
    (ha : ClosesOnce a) (hb : ClosesOnce b) : ClosesOnce (if c then a else b) := by
  split
  · exact ha
  · exact hb

/-- What a guarded function does to the reported errors and the `close` calls:
it calls `close` exactly when it reports no error other than the failure of
`close`, it reports no error when `close` returned and one error otherwise, and
it calls `close` only when every driver call before it returned. -/
theorem guarded_closes {α : Type} {f : M α} (hg : Guarded f) (w : World)
    (h0 : loggedErrors w.console = []) (hc : calls .close w.trace = 0)
    (hd : returned .close w.trace = 0) (he : earlyFailures w.trace = 0) :
    (0 < calls .close (f w).2.trace ↔
      ∀ e ∈ loggedErrors (f w).2.console, e = Err.driver .close) ∧
    ((loggedErrors (f w).2.console).length =
      if 0 < returned .close (f w).2.trace then 0 else 1) ∧
    (0 < calls .close (f w).2.trace →
      ∀ e ∈ (f w).2.trace, e.call ≠ .close → e.ok = true) := by
  obtain ⟨body, h, rfl, hb, hh⟩ := hg
  have h1 := hb w
  unfold M.tryCatch
  rcases hw : body w with ⟨r, w'⟩
  rw [hw] at h1
  obtain ⟨h2, h3⟩ := h1
  unfold sameErrors at h2
  simp only at h2 h3 ⊢
  cases r with
  | ok a =>
    simp only at h3 ⊢
    rw [h2, h0, h3.1, h3.2.1]
    refine ⟨by simp, by simp, fun _ => earlyFailures_zero _ ?_⟩
    rw [h3.2.2, he]
  | error e =>
    simp only at h3 ⊢
    obtain ⟨h4, h5⟩ := hh e w'
    rw [h4, h5, h2, h0, h3.1, hd]
    rcases h3.2 with ⟨h6, h7⟩ | ⟨h6, h7, h8⟩
    · rw [h6, hc]
      simp [h7]
    · rw [h6]
      refine ⟨by simp [h7], by simp, fun _ => earlyFailures_zero _ ?_⟩
      rw [h8, he]

theorem guarded_closesUnlessFailed {α : Type} {f : M α} (hg : Guarded f) :
    ClosesUnlessFailed f :=
  fun db fates =>
    ⟨(guarded_closes hg (World.init db fates) rfl rfl rfl rfl).1,
     (guarded_closes hg (World.init db fates) rfl rfl rfl rfl).2.2⟩

/-! ## The shape of each function -/

theorem connectAndQuery_guarded : Guarded connectAndQuery := by
  refine ⟨_, _, rfl, ?_, handler_reports _ _ (fun e => Or.inl rfl)⟩
  simp only [bind_def, pure_def]
  repeat first
    | exact closesOnce_close_then (fun _ => keeps_pure sameCloses_refl _)
        (fun _ => resolves_pure _) (fun _ => okClean_pure _)
    | exact consoleLog_sameCloses _
    | exact consoleLog_throws _ _
    | exact okClean_consoleLog _
    | exact okClean_consoleTable _
    | exact okClean_connect
    | exact okClean_query _ _
    | exact okClean_execute _ _
    | exact okClean_firstField _ _
    | exact driverStep_sameCloses connect_step (by decide)
    | exact connect_throws
    | exact driverStep_sameCloses (query_step _ _) (by decide)
    | exact query_throws _ _
    | exact driverStep_sameCloses (execute_step _ _) (by decide)
    | exact execute_throws _ _
    | exact firstField_keeps sameCloses_refl _ _
    | exact firstField_throws _ _
    | apply closesOnce_bind_pre
    | apply closesOnce_ite
    | intro _

theorem getAllRecords_guarded : Guarded getAllRecords := by
  refine ⟨_, _, rfl, ?_, handler_reports _ _ (fun e => Or.inr rfl)⟩
  simp only [bind_def, pure_def]
  repeat first
    | exact closesOnce_close_then (fun _ => keeps_pure sameCloses_refl _)
        (fun _ => resolves_pure _) (fun _ => okClean_pure _)
    | exact consoleLog_sameCloses _
    | exact consoleLog_throws _ _
    | exact okClean_consoleLog _
    | exact okClean_consoleTable _
    | exact okClean_connect
    | exact okClean_query _ _
    | exact okClean_execute _ _
    | exact okClean_firstField _ _
    | exact driverStep_sameCloses connect_step (by decide)
    | exact connect_throws
    | exact driverStep_sameCloses (query_step _ _) (by decide)
    | exact query_throws _ _
    | exact driverStep_sameCloses (execute_step _ _) (by decide)
    | exact execute_throws _ _
    | exact firstField_keeps sameCloses_refl _ _
    | exact firstField_throws _ _
    | apply closesOnce_bind_pre
    | apply closesOnce_ite
    | intro _

theorem getRecordById_guarded (id : Int) : Guarded (getRecordById id) := by
  refine ⟨_, _, rfl, ?_, handler_reports _ _ (fun e => Or.inr rfl)⟩
  simp only [bind_def, pure_def]
  repeat first
    | exact closesOnce_close_then (fun _ => keeps_pure sameCloses_refl _)
        (fun _ => resolves_pure _) (fun _ => okClean_pure _)
    | exact consoleLog_sameCloses _
    | exact consoleLog_throws _ _
    | exact okClean_consoleLog _
    | exact okClean_consoleTable _
    | exact okClean_connect
    | exact okClean_query _ _
    | exact okClean_execute _ _
    | exact okClean_firstField _ _
    | exact driverStep_sameCloses connect_step (by decide)
    | exact connect_throws
    | exact driverStep_sameCloses (query_step _ _) (by decide)
    | exact query_throws _ _
    | exact driverStep_sameCloses (execute_step _ _) (by decide)
    | exact execute_throws _ _
    | exact firstField_keeps sameCloses_refl _ _
    | exact firstField_throws _ _
    | apply closesOnce_bind_pre
    | apply closesOnce_ite
    | intro _

theorem updateRecord_guarded (id : Int) (name : String) : Guarded (updateRecord id name) := by
  refine ⟨_, _, rfl, ?_, handler_reports _ _ (fun e => Or.inr rfl)⟩
  simp only [bind_def, pure_def]
  repeat first
    | exact closesOnce_close_then (fun _ => keeps_pure sameCloses_refl _)
        (fun _ => resolves_pure _) (fun _ => okClean_pure _)
    | exact consoleLog_sameCloses _
    | exact consoleLog_throws _ _
    | exact okClean_consoleLog _
    | exact okClean_consoleTable _
    | exact okClean_connect
    | exact okClean_query _ _
    | exact okClean_execute _ _
    | exact okClean_firstField _ _
    | exact driverStep_sameCloses connect_step (by decide)
    | exact connect_throws
    | exact driverStep_sameCloses (query_step _ _) (by decide)
    | exact query_throws _ _
    | exact driverStep_sameCloses (execute_step _ _) (by decide)
    | exact execute_throws _ _
    | exact firstField_keeps sameCloses_refl _ _
    | exact firstField_throws _ _
    | apply closesOnce_bind_pre
    | apply closesOnce_ite
    | intro _

theorem deleteRecord_guarded (id : Int) : Guarded (deleteRecord id) := by
  refine ⟨_, _, rfl, ?_, handler_reports _ _ (fun e => Or.inr rfl)⟩
  simp only [bind_def, pure_def]
  repeat first
    | exact closesOnce_close_then (fun _ => keeps_pure sameCloses_refl _)
        (fun _ => resolves_pure _) (fun _ => okClean_pure _)
    | exact consoleLog_sameCloses _
    | exact consoleLog_throws _ _
    | exact okClean_consoleLog _
    | exact okClean_consoleTable _
    | exact okClean_connect
    | exact okClean_query _ _
    | exact okClean_execute _ _
    | exact okClean_firstField _ _
    | exact driverStep_sameCloses connect_step (by decide)
    | exact connect_throws
    | exact driverStep_sameCloses (query_step _ _) (by decide)
    | exact query_throws _ _
    | exact driverStep_sameCloses (execute_step _ _) (by decide)
    | exact execute_throws _ _
    | exact firstField_keeps sameCloses_refl _ _
    | exact firstField_throws _ _
    | apply closesOnce_bind_pre
    | apply closesOnce_ite
    | intro _

theorem searchByName_guarded (searchTerm : String) : Guarded (searchByName searchTerm) := by
  refine ⟨_, _, rfl, ?_, handler_reports _ _ (fun e => Or.inr rfl)⟩
  simp only [bind_def, pure_def]
  repeat first
    | exact closesOnce_close_then (fun _ => keeps_pure sameCloses_refl _)
        (fun _ => resolves_pure _) (fun _ => okClean_pure _)
    | exact consoleLog_sameCloses _
    | exact consoleLog_throws _ _
    | exact okClean_consoleLog _
    | exact okClean_consoleTable _
    | exact okClean_connect
    | exact okClean_query _ _
    | exact okClean_execute _ _
    | exact okClean_firstField _ _
    | exact driverStep_sameCloses connect_step (by decide)
    | exact connect_throws
    | exact driverStep_sameCloses (query_step _ _) (by decide)
    | exact query_throws _ _
    | exact driverStep_sameCloses (execute_step _ _) (by decide)
    | exact execute_throws _ _
    | exact firstField_keeps sameCloses_refl _ _
    | exact firstField_throws _ _
    | apply closesOnce_bind_pre
    | apply closesOnce_ite
    | intro _

theorem countRecords_guarded : Guarded countRecords := by
  refine ⟨_, _, rfl, ?_, handler_reports _ _ (fun e => Or.inr rfl)⟩
  simp only [bind_def, pure_def]
  repeat first
    | exact closesOnce_close_then (fun _ => keeps_pure sameCloses_refl _)
        (fun _ => resolves_pure _) (fun _ => okClean_pure _)
    | exact consoleLog_sameCloses _
    | exact consoleLog_throws _ _
    | exact okClean_consoleLog _
    | exact okClean_consoleTable _
    | exact okClean_connect
    | exact okClean_query _ _
    | exact okClean_execute _ _
    | exact okClean_firstField _ _
    | exact driverStep_sameCloses connect_step (by decide)
    | exact connect_throws
    | exact driverStep_sameCloses (query_step _ _) (by decide)
    | exact query_throws _ _
    | exact driverStep_sameCloses (execute_step _ _) (by decide)
    | exact execute_throws _ _
    | exact firstField_keeps sameCloses_refl _ _
    | exact firstField_throws _ _
    | apply closesOnce_bind_pre
    | apply closesOnce_ite
    | intro _

theorem joinExample_guarded : Guarded joinExample := by
  refine ⟨_, _, rfl, ?_, handler_reports _ _ (fun e => Or.inr rfl)⟩
  simp only [bind_def, pure_def]
  repeat first
    | exact closesOnce_close_then (fun _ => keeps_pure sameCloses_refl _)
        (fun _ => resolves_pure _) (fun _ => okClean_pure _)
    | exact consoleLog_sameCloses _
    | exact consoleLog_throws _ _
    | exact okClean_consoleLog _
    | exact okClean_consoleTable _
    | exact okClean_connect
    | exact okClean_query _ _
    | exact okClean_execute _ _
    | exact okClean_firstField _ _
    | exact driverStep_sameCloses connect_step (by decide)
    | exact connect_throws
    | exact driverStep_sameCloses (query_step _ _) (by decide)
    | exact query_throws _ _
    | exact driverStep_sameCloses (execute_step _ _) (by decide)
    | exact execute_throws _ _
    | exact firstField_keeps sameCloses_refl _ _
    | exact firstField_throws _ _
    | apply closesOnce_bind_pre
    | apply closesOnce_ite
    | intro _

theorem storedProcedureExample_guarded : Guarded storedProcedureExample := by
  refine ⟨_, _, rfl, ?_, handler_reports _ _ (fun e => Or.inr rfl)⟩
  simp only [bind_def, pure_def]
  repeat first
    | exact closesOnce_close_then (fun _ => keeps_pure sameCloses_refl _)
        (fun _ => resolves_pure _) (fun _ => okClean_pure _)
    | exact consoleLog_sameCloses _
    | exact consoleLog_throws _ _
    | exact okClean_consoleLog _
    | exact okClean_consoleTable _
    | exact okClean_connect
    | exact okClean_query _ _
    | exact okClean_execute _ _
    | exact okClean_firstField _ _
    | exact driverStep_sameCloses connect_step (by decide)
    | exact connect_throws
    | exact driverStep_sameCloses (query_step _ _) (by decide)
    | exact query_throws _ _
    | exact driverStep_sameCloses (execute_step _ _) (by decide)
    | exact execute_throws _ _
    | exact firstField_keeps sameCloses_refl _ _
    | exact firstField_throws _ _
    | apply closesOnce_bind_pre
    | apply closesOnce_ite
    | intro _

theorem insertRecord_guarded (name : String) : Guarded (insertRecord name) := by
  refine ⟨_, _, rfl, ?_, handler_reports _ _ (fun e => Or.inr rfl)⟩
  simp only [bind_def, pure_def]
  refine closesOnce_bind_pre (consoleLog_sameCloses _) (consoleLog_throws _ _)
    (okClean_consoleLog _) fun _ => ?_
  refine closesOnce_bind_pre (driverStep_sameCloses connect_step (by decide)) connect_throws
    okClean_connect fun _ => ?_
  refine closesOnce_bind_pre (driverStep_sameCloses (query_step _ _) (by decide))
    (query_throws _ _) (okClean_query _ _) ?_
  intro result
  cases result with
  | nil =>
    have h : ∀ (k : Js → M Js), M.bind (firstField [] "id") k = M.throw
        (.typeError ("Cannot read properties of undefined (reading " ++ "id" ++ ")")) := by
      intro k
      funext w
      rfl
    rw [h]
    exact closesOnce_throw _ (by simp)
  | cons r t =>
    refine closesOnce_bind_pre (firstField_keeps sameCloses_refl _ _) (firstField_throws _ _)
      (okClean_firstField _ _) fun _ => ?_
    refine closesOnce_bind_pre (consoleLog_sameCloses _) (consoleLog_throws _ _)
      (okClean_consoleLog _) fun _ => ?_
    refine closesOnce_close_then (fun _ => firstField_keeps sameCloses_refl _ _) (fun _ => ?_)
      (fun _ => okClean_firstField _ _)
    intro w
    simp only [firstField]
    cases List.lookup "id" r
    · exact ⟨_, rfl⟩
    · exact ⟨_, rfl⟩

/-- The six `console.log` calls that follow `close` in `setupDatabase` change
neither the `close` count nor the reported errors, and return. -/
theorem setupTail_spec (a b c d e f : List Js) :
    Keeps sameCloses
      (M.bind (consoleLog a) fun _ => M.bind (consoleLog b) fun _ => M.bind (consoleLog c) fun _ =>
        M.bind (consoleLog d) fun _ => M.bind (consoleLog e) fun _ => M.bind (consoleLog f) fun _ =>
          (M.pure Js.undefined : M Js)) ∧
    Resolves
      (M.bind (consoleLog a) fun _ => M.bind (consoleLog b) fun _ => M.bind (consoleLog c) fun _ =>
        M.bind (consoleLog d) fun _ => M.bind (consoleLog e) fun _ => M.bind (consoleLog f) fun _ =>
          (M.pure Js.undefined : M Js)) ∧
    OkClean
      (M.bind (consoleLog a) fun _ => M.bind (consoleLog b) fun _ => M.bind (consoleLog c) fun _ =>
        M.bind (consoleLog d) fun _ => M.bind (consoleLog e) fun _ => M.bind (consoleLog f) fun _ =>
          (M.pure Js.undefined : M Js)) := by
  refine ⟨?_, ?_, ?_⟩
  · repeat first
      | exact keeps_pure sameCloses_refl _
      | exact consoleLog_sameCloses _
      | apply keeps_bind sameCloses_trans
      | intro _
  · repeat first
      | exact resolves_pure _
      | exact resolves_consoleLog _
      | apply resolves_bind
      | intro _
  · repeat first
      | exact okClean_pure _
      | exact okClean_consoleLog _
      | apply okClean_bind
      | intro _

set_option maxRecDepth 4000 in
theorem setupDatabase_guarded :
    ∃ g, setupDatabase = M.bind (consoleLog [.str "Starting database setup...\n"]) (fun _ => g) ∧
      Guarded g := by
  unfold setupDatabase
  simp only [bind_def, pure_def]
  refine ⟨_, rfl, _, _, rfl, ?_, setupHandler_reports⟩
  repeat first
    | exact closesOnce_close_then (fun _ => (setupTail_spec _ _ _ _ _ _).1)
        (fun _ => (setupTail_spec _ _ _ _ _ _).2.1) (fun _ => (setupTail_spec _ _ _ _ _ _).2.2)
    | exact consoleLog_sameCloses _
    | exact consoleLog_throws _ _
    | exact okClean_consoleLog _
    | exact okClean_consoleTable _
    | exact okClean_connect
    | exact okClean_query _ _
    | exact okClean_firstField _ _
    | exact consoleTable_sameCloses _
    | exact consoleTable_throws _ _
    | exact driverStep_sameCloses connect_step (by decide)
    | exact connect_throws
    | exact driverStep_sameCloses (query_step _ _) (by decide)
    | exact query_throws _ _
    | exact firstField_keeps sameCloses_refl _ _
    | exact firstField_throws _ _
    | apply closesOnce_bind_pre
    | intro _

theorem setupDatabase_closesUnlessFailed : ClosesUnlessFailed setupDatabase := by
  obtain ⟨g, hg, hG⟩ := setupDatabase_guarded
  intro db fates
  rw [hg]
  exact ⟨(guarded_closes hG ⟨db, none, fates, [.log [.str "Starting database setup...\n"]], []⟩
    rfl rfl rfl rfl).1,
    (guarded_closes hG ⟨db, none, fates, [.log [.str "Starting database setup...\n"]], []⟩
    rfl rfl rfl rfl).2.2⟩

/-! ## The transaction example -/

theorem keeps_moreErrors_zero {α : Type} {m : M α} (h : Keeps sameErrors m) :
    Keeps (moreErrors 0) m :=
  fun w => moreErrors_of_same _ _ (h w)

theorem consoleError_moreErrors (label : String) (e : Err) :
    Keeps (moreErrors 1) (consoleError [.str label, .errMessage e]) := by
  intro w
  simp [moreErrors, consoleError, loggedErrors_append, loggedErrors]

theorem transactionExample_moreErrors : Keeps (moreErrors 2) transactionExample := by
  unfold transactionExample
  simp only [bind_def, pure_def]
  refine keeps_tryCatch_comp (moreErrors_comp 1 1) (fun a b => moreErrors_mono (by omega) a b)
    ?_ (reports_moreErrors (handler_reports _ _ (fun e => Or.inr rfl)))
  refine keeps_bind_comp (moreErrors_comp 0 1) (fun a b => moreErrors_mono (by omega) a b)
    (keeps_moreErrors_zero (consoleLog_sameErrors _)) fun _ => ?_
  refine keeps_bind_comp (moreErrors_comp 0 1) (fun a b => moreErrors_mono (by omega) a b)
    (keeps_moreErrors_zero (driverStep_sameErrors connect_step)) fun _ => ?_
  refine keeps_bind_comp (moreErrors_comp 0 1) (fun a b => moreErrors_mono (by omega) a b)
    (keeps_moreErrors_zero (driverStep_sameErrors begin_step)) fun _ => ?_
  refine keeps_bind_comp (moreErrors_comp 1 0) (fun a b => id) ?_ fun _ => ?_
  · refine keeps_tryCatch_comp (moreErrors_comp 0 1)
      (fun a b => moreErrors_mono (by omega) a b) ?_ fun e => ?_
    · refine keeps_moreErrors_zero ?_
      repeat first
        | exact consoleLog_sameErrors _
        | exact driverStep_sameErrors (queryTx_step _ _)
        | exact driverStep_sameErrors commit_step
        | apply keeps_bind sameErrors_trans
        | intro _
    · exact keeps_bind_comp (moreErrors_comp 0 1) (fun a b => moreErrors_mono (by omega) a b)
        (keeps_moreErrors_zero (driverStep_sameErrors rollback_step)) fun _ => consoleError_moreErrors _ _
  · refine keeps_moreErrors_zero ?_
    repeat first
      | exact keeps_pure sameErrors_refl _
      | exact driverStep_sameErrors close_step
      | apply keeps_bind sameErrors_trans
      | intro _

/-! ## Functions that only read -/

theorem connectAndQuery_sameDb : Keeps sameDb connectAndQuery := by
  unfold connectAndQuery
  simp only [bind_def, pure_def]
  repeat first
    | exact keeps_pure sameDb_refl _
    | exact consoleLog_sameDb _
    | exact consoleError_sameDb _
    | exact connect_sameDb
    | exact close_sameDb
    | exact query_sameDb _ _ rfl
    | exact firstField_keeps sameDb_refl _ _
    | apply keeps_tryCatch sameDb_trans
    | apply keeps_bind sameDb_trans
    | apply keeps_ite
    | intro _

theorem getAllRecords_sameDb : Keeps sameDb getAllRecords := by
  unfold getAllRecords
  simp only [bind_def, pure_def]
  repeat first
    | exact keeps_pure sameDb_refl _
    | exact consoleLog_sameDb _
    | exact consoleError_sameDb _
    | exact connect_sameDb
    | exact close_sameDb
    | exact query_sameDb _ _ rfl
    | exact firstField_keeps sameDb_refl _ _
    | apply keeps_tryCatch sameDb_trans
    | apply keeps_bind sameDb_trans
    | apply keeps_ite
    | intro _

theorem getRecordById_sameDb (id : Int) : Keeps sameDb (getRecordById id) := by
  unfold getRecordById
  simp only [bind_def, pure_def]
  repeat first
    | exact keeps_pure sameDb_refl _
    | exact consoleLog_sameDb _
    | exact consoleError_sameDb _
    | exact connect_sameDb
    | exact close_sameDb
    | exact query_sameDb _ _ rfl
    | exact firstField_keeps sameDb_refl _ _
    | apply keeps_tryCatch sameDb_trans
    | apply keeps_bind sameDb_trans
    | apply keeps_ite
    | intro _

theorem searchByName_sameDb (searchTerm : String) : Keeps sameDb (searchByName searchTerm) := by
  unfold searchByName
  simp only [bind_def, pure_def]
  repeat first
    | exact keeps_pure sameDb_refl _
    | exact consoleLog_sameDb _
    | exact consoleError_sameDb _
    | exact connect_sameDb
    | exact close_sameDb
    | exact query_sameDb _ _ rfl
    | exact firstField_keeps sameDb_refl _ _
    | apply keeps_tryCatch sameDb_trans
    | apply keeps_bind sameDb_trans
    | apply keeps_ite
    | intro _

theorem countRecords_sameDb : Keeps sameDb countRecords := by
  unfold countRecords
  simp only [bind_def, pure_def]
  repeat first
    | exact keeps_pure sameDb_refl _
    | exact consoleLog_sameDb _
    | exact consoleError_sameDb _
    | exact connect_sameDb
    | exact close_sameDb
    | exact query_sameDb _ _ rfl
    | exact firstField_keeps sameDb_refl _ _
    | apply keeps_tryCatch sameDb_trans
    | apply keeps_bind sameDb_trans
    | apply keeps_ite
    | intro _

theorem joinExample_sameDb : Keeps sameDb joinExample := by
  unfold joinExample
  simp only [bind_def, pure_def]
  repeat first
    | exact keeps_pure sameDb_refl _
    | exact consoleLog_sameDb _
    | exact consoleError_sameDb _
    | exact connect_sameDb
    | exact close_sameDb
    | exact query_sameDb _ _ rfl
    | exact firstField_keeps sameDb_refl _ _
    | apply keeps_tryCatch sameDb_trans
    | apply keeps_bind sameDb_trans
    | apply keeps_ite
    | intro _

/-! ## The tally of reported errors -/

theorem failures_append_single (t : List Event) (c : Call) (ok : Bool) :
    failures (t ++ [⟨c, ok⟩]) = failures t + (if !ok && c != .rollback then 1 else 0) := by
  unfold failures
  rw [List.filter_append, List.length_append]
  by_cases h : (!ok && c != .rollback) = true <;> simp [List.filter_cons, h]

theorem failedCalls_append_single (t : List Event) (c : Call) (ok : Bool) :
    failedCalls (t ++ [⟨c, ok⟩]) = failedCalls t + (if !ok then 1 else 0) := by
  unfold failedCalls
  rw [List.filter_append, List.length_append]
  cases ok <;> simp [List.filter_cons]

theorem tallied_pure {α : Type} (a : α) : Tallied (M.pure a) := by
  intro w
  simp [M.pure, isOk]

theorem tallied_consoleLog (args : List Js) : Tallied (consoleLog args) := by
  intro w
  simp [consoleLog, isOk, logged, loggedErrors_append, loggedErrors]

theorem tallied_bind {α β : Type} {m : M α} {f : α → M β} (hm : Tallied m)
    (hf : ∀ a, Tallied (f a)) : Tallied (M.bind m f) := by
  intro w
  obtain ⟨a1, a2, a3, a4, a5⟩ := hm w
  unfold M.bind
  rcases h : m w with ⟨r, w1⟩
  rw [h] at a1 a2 a3 a4 a5
  cases r with
  | error e => exact ⟨a1, a2, a3, a4, a5⟩
  | ok a =>
    obtain ⟨b1, b2, b3, b4, b5⟩ := hf a w1
    have a6 := a4 rfl
    simp only at a1 a2 a3 a6 ⊢
    refine ⟨by omega, by omega, by omega, fun hk => ?_, fun hk => ?_⟩
    · have := b4 hk
      omega
    · have := b5 hk
      omega

theorem tallied_tryCatch {α : Type} {m : M α} {h : Err → M α} (hm : Tallied m)
    (hh : Settles h) : Tallied (M.tryCatch m h) := by
  intro w
  obtain ⟨a1, a2, a3, a4, a5⟩ := hm w
  unfold M.tryCatch
  rcases hr : m w with ⟨r, w1⟩
  rw [hr] at a1 a2 a3 a4 a5
  cases r with
  | ok a => exact ⟨a1, a2, a3, a4, a5⟩
  | error e =>
    have a6 := a5 rfl
    simp only at a1 a2 a3 a6 ⊢
    obtain ⟨b1, b2, b4, b5⟩ := hh e w1 (by omega)
    refine ⟨by omega, by omega, by omega, fun hk => ?_, fun hk => ?_⟩
    · have := b4 hk
      omega
    · have := b5 hk
      omega

theorem tallied_of_recorded {α : Type} {c : Call} {m : M α} (hc : c ≠ .rollback)
    (h : RecordedStep c m) : Tallied m := by
  intro w
  obtain ⟨h1, h2⟩ := h w
  have hl : logged (m w).2 = logged w := by
    unfold logged
    rw [h1]
  rw [hl, h2, failures_append_single, failedCalls_append_single]
  cases isOk (m w).1
  · simp [hc]
    omega
  · simp [hc]

theorem connect_recorded : RecordedStep .connect connect := by
  intro w
  unfold connect
  rcases h : nextFate w with ⟨f, w'⟩
  have h1 := nextFate_console w
  have h2 := nextFate_trace w
  rw [h] at h1 h2
  cases f <;> simp_all [record, isOk]

theorem begin_recorded : RecordedStep .begin begin := by
  intro w
  unfold begin
  rcases h : nextFate w with ⟨f, w'⟩
  have h1 := nextFate_console w
  have h2 := nextFate_trace w
  rw [h] at h1 h2
  cases f <;> simp_all [record, isOk]

theorem close_recorded : RecordedStep .close close := by
  intro w
  unfold close
  rcases h : nextFate w with ⟨f, w'⟩
  have h1 := nextFate_console w
  have h2 := nextFate_trace w
  rw [h] at h1 h2
  cases f <;> simp_all [record, isOk]

theorem commit_recorded : RecordedStep .commit commit := by
  intro w
  unfold commit
  rcases h : nextFate w with ⟨f, w'⟩
  have h1 := nextFate_console w
  have h2 := nextFate_trace w
  rw [h] at h1 h2
  cases f <;> cases htx : w'.tx <;> simp_all [record, isOk]

theorem rollback_recorded : RecordedStep .rollback rollback := by
  intro w
  unfold rollback
  rcases h : nextFate w with ⟨f, w'⟩
  have h1 := nextFate_console w
  have h2 := nextFate_trace w
  rw [h] at h1 h2
  cases f <;> cases htx : w'.tx <;> simp_all [record, isOk]

theorem queryTx_recorded (stmt : Stmt) (ps : Params) :
    RecordedStep .query (queryTx stmt ps) := by
  intro w
  unfold queryTx
  rcases h : nextFate w with ⟨f, w'⟩
  have h1 := nextFate_console w
  have h2 := nextFate_trace w
  rw [h] at h1 h2
  cases f <;> cases htx : w'.tx <;> simp_all [record, isOk] <;>
    split <;> simp_all [isOk]

/-- The outer catch block reports the failure it received. -/
theorem settles_report {α : Type} (label : String) (a : α) :
    Settles fun err => M.bind (consoleError [.str label, .errMessage err]) fun _ => M.pure a := by
  intro e w _
  simp [M.bind, M.pure, consoleError, isOk, logged, loggedErrors_append, loggedErrors]
  omega

/-- The inner catch block rolls back and reports the failure it received; when
`rollback` fails, its failure is not counted and the report is left to the outer
catch block. -/
theorem settles_rollback (label : String) :
    Settles fun err => M.bind rollback fun _ => consoleError [.str label, .errMessage err] := by
  intro e w _
  obtain ⟨h1, h2⟩ := rollback_recorded w
  rcases hr : rollback w with ⟨r, w1⟩
  rw [hr] at h1 h2
  simp only at h1 h2
  cases r with
  | ok a =>
    simp [M.bind, hr, consoleError, isOk, logged, loggedErrors_append, loggedErrors, h1, h2,
      failures_append_single]
    omega
  | error e1 =>
    simp [M.bind, hr, isOk, logged, h1, h2, failures_append_single]

theorem transactionExample_tallied : Tallied transactionExample := by
  unfold transactionExample
  simp only [bind_def, pure_def]
  refine tallied_tryCatch ?_ (settles_report _ _)
  repeat first
    | exact tallied_pure _
    | exact tallied_consoleLog _
    | exact tallied_of_recorded (by decide) connect_recorded
    | exact tallied_of_recorded (by decide) begin_recorded
    | exact tallied_of_recorded (by decide) commit_recorded
    | exact tallied_of_recorded (by decide) close_recorded
    | exact tallied_of_recorded (by decide) (queryTx_recorded _ _)
    | refine tallied_tryCatch ?_ (settles_rollback _)
    | apply tallied_bind
    | intro _

theorem failedCalls_pos (t : List Event) (h : ∃ e ∈ t, e.ok = false) : 0 < failedCalls t := by
  obtain ⟨e, he, hk⟩ := h
  unfold failedCalls
  apply List.length_pos_of_mem (a := e)
  simp [List.mem_filter, he, hk]

theorem failures_zero (t : List Event) (h : ∀ e ∈ t, e.ok = true) : failures t = 0 := by
  unfold failures
  rw [List.length_eq_zero, List.filter_eq_nil_iff]
  intro e he
  simp [h e he]

/-- From a fresh world `transactionExample` has reported, when it returns, one
error for each failed driver call other than `rollback`, and at least one error
when any driver call failed. -/
theorem transactionExample_tally (db : Db) (fates : List Fate) :
    (loggedErrors (transactionExample (World.init db fates)).2.console).length =
      failures (transactionExample (World.init db fates)).2.trace ∧
    ((∃ e ∈ (transactionExample (World.init db fates)).2.trace, e.ok = false) →
      1 ≤ (loggedErrors (transactionExample (World.init db fates)).2.console).length) := by
  obtain ⟨-, -, h3, h4, -⟩ := transactionExample_tallied (World.init db fates)
  obtain ⟨v, hv⟩ := transactionExample_resolves (World.init db fates)
  have h5 := h4 (by rw [hv]; rfl)
  have h6 : logged (World.init db fates) = 0 := rfl
  have h7 : failures (World.init db fates).trace = 0 := rfl
  have h8 : failedCalls (World.init db fates).trace = 0 := rfl
  rw [h6, h7] at h5
  rw [h8] at h3
  unfold logged at h5
  refine ⟨by omega, fun hf => ?_⟩
  have := failedCalls_pos _ hf
  omega

/-! ## Claims on failure handling -/

theorem guarded_resolvesReportingOnce {α : Type} {f : M α} (hg : Guarded f) (hr : Resolves f) :
    ResolvesReportingOnce f :=
  fun db fates => ⟨hr _, (guarded_closes hg (World.init db fates) rfl rfl rfl rfl).2.1⟩

theorem setupDatabase_resolvesReportingOnce : ResolvesReportingOnce setupDatabase := by
  obtain ⟨g, hg, hG⟩ := setupDatabase_guarded
  intro db fates
  refine ⟨setupDatabase_resolves _, ?_⟩
  rw [hg]
  exact (guarded_closes hG ⟨db, none, fates, [.log [.str "Starting database setup...\n"]], []⟩
    rfl rfl rfl rfl).2.1

/-- C1 (as stated, refuted): in `getRecordById 1`, when `connect` returns and the
query then fails, the function returns without any call of `close`. -/
theorem close_skipped_after_failed_query :
    returned .connect (getRecordById 1 (World.init exampleDb [.ok, .fail])).2.trace = 1 ∧
    calls .close (getRecordById 1 (World.init exampleDb [.ok, .fail])).2.trace = 0 := by
  decide

/-- C1 (amended): each of the nine listed examples, `connectAndQuery` and
`setupDatabase` calls `close` exactly on the executions whose catch block reports
no error other than the failure of `close` itself, and on every execution that
calls `close` each driver call before it (`connect`, `query`, `execute`) has
returned: `close` is reached when every step before it went through and is
skipped when one of them threw. -/
theorem close_called_unless_earlier_failure :
    ClosesUnlessFailed getAllRecords ∧
    (∀ id, ClosesUnlessFailed (getRecordById id)) ∧
    (∀ name, ClosesUnlessFailed (insertRecord name)) ∧
    (∀ id name, ClosesUnlessFailed (updateRecord id name)) ∧
    (∀ id, ClosesUnlessFailed (deleteRecord id)) ∧
    (∀ s, ClosesUnlessFailed (searchByName s)) ∧
    ClosesUnlessFailed countRecords ∧
    ClosesUnlessFailed joinExample ∧
    ClosesUnlessFailed storedProcedureExample ∧
    ClosesUnlessFailed connectAndQuery ∧
    ClosesUnlessFailed setupDatabase :=
  ⟨guarded_closesUnlessFailed getAllRecords_guarded,
   fun id => guarded_closesUnlessFailed (getRecordById_guarded id),
   fun name => guarded_closesUnlessFailed (insertRecord_guarded name),
   fun id name => guarded_closesUnlessFailed (updateRecord_guarded id name),
   fun id => guarded_closesUnlessFailed (deleteRecord_guarded id),
   fun s => guarded_closesUnlessFailed (searchByName_guarded s),
   guarded_closesUnlessFailed countRecords_guarded,
   guarded_closesUnlessFailed joinExample_guarded,
   guarded_closesUnlessFailed storedProcedureExample_guarded,
   guarded_closesUnlessFailed connectAndQuery_guarded,
   setupDatabase_closesUnlessFailed⟩

/-- C4 (as stated, refuted): in `transactionExample`, when the second insert
fails, the rollback returns and `close` then fails, the function returns having
reported two errors, not one. -/
theorem transaction_reports_two_errors :
    (transactionExample (World.init exampleDb [.ok, .ok, .ok, .fail, .ok, .fail])).1
      = .ok .undefined ∧
    loggedErrors (transactionExample
      (World.init exampleDb [.ok, .ok, .ok, .fail, .ok, .fail])).2.console
      = [.driver .query, .driver .close] :=
  ⟨rfl, by decide⟩

/-- C4 (amended): for every database and every fate of every driver call
(failure, or an empty recordset where the code reads row 0), each function
returns normally.  Every function but `transactionExample` has then reported no
error when its `close` call returned and exactly one error otherwise;
`transactionExample` has reported one error for each failed driver call other
than `rollback`: none when every call returned, at least one when a call failed,
and never more than two. -/
theorem no_failure_escapes :
    ResolvesReportingOnce connectAndQuery ∧
    ResolvesReportingOnce getAllRecords ∧
    (∀ id, ResolvesReportingOnce (getRecordById id)) ∧
    (∀ name, ResolvesReportingOnce (insertRecord name)) ∧
    (∀ id name, ResolvesReportingOnce (updateRecord id name)) ∧
    (∀ id, ResolvesReportingOnce (deleteRecord id)) ∧
    (∀ s, ResolvesReportingOnce (searchByName s)) ∧
    ResolvesReportingOnce countRecords ∧
    ResolvesReportingOnce joinExample ∧
    ResolvesReportingOnce storedProcedureExample ∧
    ResolvesReportingOnce setupDatabase ∧
    (∀ db fates, (∃ v, (transactionExample (World.init db fates)).1 = .ok v) ∧
      (loggedErrors (transactionExample (World.init db fates)).2.console).length =
        failures (transactionExample (World.init db fates)).2.trace ∧
      ((∀ e ∈ (transactionExample (World.init db fates)).2.trace, e.ok = true) →
        (loggedErrors (transactionExample (World.init db fates)).2.console).length = 0) ∧
      ((∃ e ∈ (transactionExample (World.init db fates)).2.trace, e.ok = false) →
        1 ≤ (loggedErrors (transactionExample (World.init db fates)).2.console).length) ∧
      (loggedErrors (transactionExample (World.init db fates)).2.console).length ≤ 2) :=
  ⟨guarded_resolvesReportingOnce connectAndQuery_guarded connectAndQuery_resolves,
   guarded_resolvesReportingOnce getAllRecords_guarded getAllRecords_resolves,
   fun id => guarded_resolvesReportingOnce (getRecordById_guarded id) (getRecordById_resolves id),
   fun name => guarded_resolvesReportingOnce (insertRecord_guarded name) (insertRecord_resolves name),
   fun id name =>
     guarded_resolvesReportingOnce (updateRecord_guarded id name) (updateRecord_resolves id name),
   fun id => guarded_resolvesReportingOnce (deleteRecord_guarded id) (deleteRecord_resolves id),
   fun s => guarded_resolvesReportingOnce (searchByName_guarded s) (searchByName_resolves s),
   guarded_resolvesReportingOnce countRecords_guarded countRecords_resolves,
   guarded_resolvesReportingOnce joinExample_guarded joinExample_resolves,
   guarded_resolvesReportingOnce storedProcedureExample_guarded storedProcedureExample_resolves,
   setupDatabase_resolvesReportingOnce,
   fun db fates => ⟨transactionExample_resolves _, (transactionExample_tally db fates).1,
     fun hok => by rw [(transactionExample_tally db fates).1, failures_zero _ hok],
     (transactionExample_tally db fates).2, by
     have h := transactionExample_moreErrors (World.init db fates)
     simpa [moreErrors, World.init, loggedErrors] using h⟩⟩

/-! ## Claims on the database state -/

/-- C9 (as stated, refuted): a run of `transactionExample` in which every call
succeeds leaves two more rows in `info`, and a run of `storedProcedureExample`
leaves the procedure `GetInfoByName` defined. -/
theorem transaction_and_procedure_change_database :
    (transactionExample (World.init exampleDb [])).2.db.info =
      some ⟨[⟨1, "John Doe"⟩, ⟨2, "Jane Smith"⟩, ⟨3, "Transaction User 1"⟩,
             ⟨4, "Transaction User 2"⟩], 5⟩ ∧
    (storedProcedureExample (World.init exampleDb [])).2.db.procs =
      [("GetInfoByName", .infoByNameLike)] ∧
    (transactionExample (World.init exampleDb [])).2.db ≠ exampleDb ∧
    (storedProcedureExample (World.init exampleDb [])).2.db ≠ exampleDb := by
  decide

/-- C9 (amended): `connectAndQuery`, `getAllRecords`, `getRecordById`,
`searchByName`, `countRecords` and `joinExample` leave the database (tables, rows
and stored procedures) as they found it, for every argument, every world and
every fate of the driver calls. -/
theorem readers_keep_database (w : World) :
    (connectAndQuery w).2.db = w.db ∧
    (getAllRecords w).2.db = w.db ∧
    (∀ id, (getRecordById id w).2.db = w.db) ∧
    (∀ s, (searchByName s w).2.db = w.db) ∧
    (countRecords w).2.db = w.db ∧
    (joinExample w).2.db = w.db :=
  ⟨connectAndQuery_sameDb w, getAllRecords_sameDb w, fun id => getRecordById_sameDb id w,
   fun s => searchByName_sameDb s w, countRecords_sameDb w, joinExample_sameDb w⟩

/-! ## The driver of the examples -/

theorem announces_of_shape {α : Type} (banner : String) (rest : Unit → M α) (h : Err → M α)
    (hr : Keeps extendsConsole (rest ())) (hh : ∀ e, Keeps extendsConsole (h e)) :
    Announces banner (M.tryCatch (M.bind (consoleLog [.str banner]) rest) h) := by
  intro w
  have h1 : Keeps extendsConsole (M.tryCatch (rest ()) h) :=
    keeps_tryCatch extendsConsole_trans hr hh
  obtain ⟨o, ho⟩ := h1 { w with console := w.console ++ [.log [.str banner]] }
  refine ⟨o, ?_⟩
  have h2 : M.tryCatch (M.bind (consoleLog [.str banner]) rest) h w =
      M.tryCatch (rest ()) h { w with console := w.console ++ [.log [.str banner]] } := rfl
  rw [h2, ho]
  simp

theorem getAllRecords_announces :
    Announces "\n=== Example 1: Get All Records ===" getAllRecords := by
  unfold getAllRecords
  simp only [bind_def, pure_def]
  apply announces_of_shape
  all_goals
    repeat first
      | exact keeps_pure extendsConsole_refl _
      | exact consoleLog_extends _
      | exact consoleError_extends _
      | exact driverStep_extends connect_step
      | exact driverStep_extends close_step
      | exact driverStep_extends (query_step _ _)
      | exact firstField_keeps extendsConsole_refl _ _
      | apply keeps_bind extendsConsole_trans
      | apply keeps_ite
      | intro _

theorem getRecordById_announces (id : Int) :
    Announces "\n=== Example 2: Get Record By ID ===" (getRecordById id) := by
  unfold getRecordById
  simp only [bind_def, pure_def]
  apply announces_of_shape
  all_goals
    repeat first
      | exact keeps_pure extendsConsole_refl _
      | exact consoleLog_extends _
      | exact consoleError_extends _
      | exact driverStep_extends connect_step
      | exact driverStep_extends close_step
      | exact driverStep_extends (query_step _ _)
      | exact firstField_keeps extendsConsole_refl _ _
      | apply keeps_bind extendsConsole_trans
      | apply keeps_ite
      | intro _

theorem countRecords_announces :
    Announces "\n=== Example 7: Count Records ===" countRecords := by
  unfold countRecords
  simp only [bind_def, pure_def]
  apply announces_of_shape
  all_goals
    repeat first
      | exact keeps_pure extendsConsole_refl _
      | exact consoleLog_extends _
      | exact consoleError_extends _
      | exact driverStep_extends connect_step
      | exact driverStep_extends close_step
      | exact driverStep_extends (query_step _ _)
      | exact firstField_keeps extendsConsole_refl _ _
      | apply keeps_bind extendsConsole_trans
      | apply keeps_ite
      | intro _

theorem searchByName_announces (s : String) :
    Announces "\n=== Example 6: Search Records ===" (searchByName s) := by
  unfold searchByName
  simp only [bind_def, pure_def]
  apply announces_of_shape
  all_goals
    repeat first
      | exact keeps_pure extendsConsole_refl _
      | exact consoleLog_extends _
      | exact consoleError_extends _
      | exact driverStep_extends connect_step
      | exact driverStep_extends close_step
      | exact driverStep_extends (query_step _ _)
      | exact firstField_keeps extendsConsole_refl _ _
      | apply keeps_bind extendsConsole_trans
      | apply keeps_ite
      | intro _

/-- A program that resolves returns its value and the world it leaves. -/
theorem resolves_run {α : Type} {m : M α} (h : Resolves m) (w : World) :
    ∃ a, m w = (.ok a, (m w).2) := by
  obtain ⟨a, ha⟩ := h w
  refine ⟨a, ?_⟩
  rw [← ha]

/-- C10: for every world, hence every database and every pattern of driver
failures, `runAllExamples` returns normally, and the world it leaves is the one
obtained by running `getAllRecords`, `getRecordById 1`, `countRecords` and
`searchByName "John"` one after the other, each from the world the previous one
left when it returned, between the heading and the closing lines.  The console
shows the four banners in that order and ends with the closing lines. -/
theorem runAllExamples_sequential (w : World) :
    runAllExamples w =
      (.ok .undefined,
        withClosing (searchByName "John" (countRecords (getRecordById 1
          (getAllRecords (withHeading w)).2).2).2).2) ∧
    ∃ o1 o2 o3 o4, (runAllExamples w).2.console =
      w.console ++
        [.log [.str "========================================"],
         .log [.str "SQL Server Connection Examples"],
         .log [.str "========================================"]] ++
        .log [.str "\n=== Example 1: Get All Records ==="] :: o1 ++
        .log [.str "\n=== Example 2: Get Record By ID ==="] :: o2 ++
        .log [.str "\n=== Example 7: Count Records ==="] :: o3 ++
        .log [.str "\n=== Example 6: Search Records ==="] :: o4 ++
        [.log [.str "\n========================================"],
         .log [.str "All examples completed!"],
         .log [.str "========================================\n"]] := by
  have key : runAllExamples w =
      (.ok .undefined,
        withClosing (searchByName "John" (countRecords (getRecordById 1
          (getAllRecords (withHeading w)).2).2).2).2) := by
    obtain ⟨a1, h1⟩ := resolves_run getAllRecords_resolves (withHeading w)
    obtain ⟨a2, h2⟩ := resolves_run (getRecordById_resolves 1) (getAllRecords (withHeading w)).2
    obtain ⟨a3, h3⟩ := resolves_run countRecords_resolves
      (getRecordById 1 (getAllRecords (withHeading w)).2).2
    obtain ⟨a4, h4⟩ := resolves_run (searchByName_resolves "John")
      (countRecords (getRecordById 1 (getAllRecords (withHeading w)).2).2).2
    unfold runAllExamples
    simp only [bind_def, pure_def]
    have s1 : ∀ k : Unit → M Js,
        M.bind (consoleLog [.str "========================================"])
          (fun _ => M.bind (consoleLog [.str "SQL Server Connection Examples"])
            (fun _ => M.bind (consoleLog [.str "========================================"]) k)) w
          = k () (withHeading w) := by
      intro k
      simp [M.bind, consoleLog, withHeading]
    rw [s1, bind_of_ok h1, bind_of_ok h2, bind_of_ok h3, bind_of_ok h4]
    simp [M.bind, M.pure, consoleLog, withClosing]
  refine ⟨key, ?_⟩
  rw [key]
  obtain ⟨o1, h1⟩ := getAllRecords_announces (withHeading w)
  obtain ⟨o2, h2⟩ := getRecordById_announces 1 (getAllRecords (withHeading w)).2
  obtain ⟨o3, h3⟩ := countRecords_announces (getRecordById 1 (getAllRecords (withHeading w)).2).2
  obtain ⟨o4, h4⟩ := searchByName_announces "John"
    (countRecords (getRecordById 1 (getAllRecords (withHeading w)).2).2).2
  refine ⟨o1, o2, o3, o4, ?_⟩
  simp only [withClosing]
  rw [h4, h3, h2, h1]
  simp [withHeading]

/-! ## The transaction example, step by step -/

theorem connect_out (w : World) : (connect w).2.db = w.db ∧
    (connect w).2.trace = w.trace ++ [⟨.connect, isOk (connect w).1⟩] := by
  unfold connect
  rcases h : nextFate w with ⟨f, w'⟩
  have h1 := nextFate_db w
  have h2 := nextFate_trace w
  rw [h] at h1 h2
  cases f <;> simp_all [record, isOk]

theorem begin_out (w : World) : (begin w).2.db = w.db ∧
    (begin w).2.trace = w.trace ++ [⟨.begin, isOk (begin w).1⟩] := by
  unfold begin
  rcases h : nextFate w with ⟨f, w'⟩
  have h1 := nextFate_db w
  have h2 := nextFate_trace w
  rw [h] at h1 h2
  cases f <;> simp_all [record, isOk]

theorem close_out (w : World) : (close w).2.db = w.db ∧
    (close w).2.trace = w.trace ++ [⟨.close, isOk (close w).1⟩] := by
  unfold close
  rcases h : nextFate w with ⟨f, w'⟩
  have h1 := nextFate_db w
  have h2 := nextFate_trace w
  rw [h] at h1 h2
  cases f <;> simp_all [record, isOk]

theorem rollback_out (w : World) : (rollback w).2.db = w.db ∧
    (rollback w).2.trace = w.trace ++ [⟨.rollback, isOk (rollback w).1⟩] := by
  unfold rollback
  rcases h : nextFate w with ⟨f, w'⟩
  have h1 := nextFate_db w
  have h2 := nextFate_trace w
  rw [h] at h1 h2
  cases f <;> cases htx : w'.tx <;> simp_all [record, isOk]

theorem queryTx_out (stmt : Stmt) (ps : Params) (w : World) :
    (queryTx stmt ps w).2.db = w.db ∧
    (queryTx stmt ps w).2.trace = w.trace ++ [⟨.query, isOk (queryTx stmt ps w).1⟩] := by
  unfold queryTx
  rcases h : nextFate w with ⟨f, w'⟩
  have h1 := nextFate_db w
  have h2 := nextFate_trace w
  rw [h] at h1 h2
  cases f <;> cases htx : w'.tx <;> simp_all [record, isOk] <;>
    split <;> simp_all [isOk]

theorem extendsTrace_refl (w : World) : extendsTrace w w := ⟨[], by simp⟩

theorem extendsTrace_trans (a b c : World) (h1 : extendsTrace a b) (h2 : extendsTrace b c) :
    extendsTrace a c := by
  obtain ⟨o1, h1⟩ := h1
  obtain ⟨o2, h2⟩ := h2
  exact ⟨o1 ++ o2, by rw [h2, h1, List.append_assoc]⟩

theorem driverStep_extendsTrace {α : Type} {c : Call} {m : M α} (h : DriverStep c m) :
    Keeps extendsTrace m := by
  intro w
  obtain ⟨ok, ht⟩ := (h w).2
  exact ⟨_, ht⟩

theorem consoleLog_extendsTrace (args : List Js) : Keeps extendsTrace (consoleLog args) :=
  fun _ => ⟨[], by simp [consoleLog]⟩

theorem consoleError_extendsTrace (args : List Js) : Keeps extendsTrace (consoleError args) :=
  fun _ => ⟨[], by simp [consoleError]⟩

theorem bind_of_error {α β : Type} {m : M α} {f : α → M β} {w w' : World} {e : Err}
    (h : m w = (.error e, w')) : M.bind m f w = (.error e, w') := by
  simp [M.bind, h]

theorem tryCatch_of_error {α : Type} {m : M α} {h : Err → M α} {w w' : World} {e : Err}
    (hm : m w = (.error e, w')) : M.tryCatch m h w = h e w' := by
  simp [M.tryCatch, hm]

theorem tryCatch_bind_of_ok {α β : Type} {m : M α} {k : α → M β} {h : Err → M β}
    {w w' : World} {a : α} (hm : m w = (.ok a, w')) :
    M.tryCatch (M.bind m k) h w = M.tryCatch (k a) h w' := by
  simp [M.tryCatch, M.bind, hm]

/-- The outer blocks see the inner try block only through its outcome. -/
theorem nested_congr {α β : Type} {i i' : M α} {ih : Err → M α} {k : α → M β}
    {h : Err → M β} {w w' : World} (hi : i w = i' w') :
    M.tryCatch (M.bind (M.tryCatch i ih) k) h w =
      M.tryCatch (M.bind (M.tryCatch i' ih) k) h w' := by
  simp [M.tryCatch, M.bind, hi]

/-- Once the inner try block has thrown: `rollback` is called once, `commit` is
not called, and the database stays as it is, whether `rollback` and `close`
return or fail. -/
theorem transaction_recover (e : Err) (w w' : World) (i : M Unit)
    (hi : i w = (.error e, w')) (out : Except Err Js × World)
    (hout : out = M.tryCatch
      (M.bind
        (M.tryCatch i fun err =>
          M.bind rollback fun _ =>
            consoleError [.str "Transaction rolled back due to error:", .errMessage err])
        fun _ => M.bind close fun _ => M.pure Js.undefined)
      (fun err =>
        M.bind (consoleError [.str "Transaction failed:", .errMessage err]) fun _ =>
          M.pure Js.undefined) w) :
    out.2.db = w'.db ∧
      ∃ ok rest, out.2.trace = w'.trace ++ ⟨.rollback, ok⟩ :: rest ∧
        calls .commit rest = 0 ∧ calls .rollback rest = 0 := by
  simp only [M.tryCatch, M.bind, hi] at hout
  obtain ⟨d1, t1⟩ := rollback_out w'
  rcases h1 : rollback w' with ⟨r1, w1⟩
  rw [h1] at d1 t1 hout
  simp only at d1 t1 hout
  cases r1 with
  | error e1 =>
    simp only [consoleError, M.pure] at hout
    rw [hout]
    exact ⟨d1, _, [], by simpa using t1, rfl, rfl⟩
  | ok u1 =>
    simp only [consoleError] at hout
    obtain ⟨d2, t2⟩ := close_out
      { w1 with console := w1.console ++
        [.error [.str "Transaction rolled back due to error:", .errMessage e]] }
    rcases h2 :
      close { w1 with console := w1.console ++
        [.error [.str "Transaction rolled back due to error:", .errMessage e]] }
      with ⟨r2, w2⟩
    rw [h2] at d2 t2 hout
    simp only at d2 t2 hout
    have h3 : out.2.db = w2.db ∧ out.2.trace = w2.trace := by
      cases r2 <;> simp only [M.pure] at hout <;> rw [hout] <;> exact ⟨rfl, rfl⟩
    refine ⟨by rw [h3.1, ← d1]; exact d2, true, [⟨.close, isOk r2⟩], ?_, by simp [calls],
      by simp [calls]⟩
    rw [h3.2, t2, t1]
    simp [isOk]

theorem calls_cons (c : Call) (e : Event) (rest : List Event) :
    calls c (e :: rest) = calls c [e] + calls c rest :=
  calls_append c [e] rest

theorem calls_split (c : Call) (a : List Event) (e : Event) (rest : List Event) :
    calls c (a ++ e :: rest) = calls c a + calls c [e] + calls c rest := by
  rw [calls_append, calls_cons, Nat.add_assoc]

/-- C2: for every database and every fate of the driver calls, when the first
insert of `transactionExample` returns (third driver call) and the second insert
fails (fourth driver call), then after the function has returned the table `info`
is the one before the call, as is the whole database, `commit` was never called
and `rollback` was called exactly once. -/
theorem transaction_atomic (db : Db) (fates : List Fate)
    (h1 : (transactionExample (World.init db fates)).2.trace.get? 2 = some ⟨.query, true⟩)
    (h2 : (transactionExample (World.init db fates)).2.trace.get? 3 = some ⟨.query, false⟩) :
    (transactionExample (World.init db fates)).2.db.info = db.info ∧
    (transactionExample (World.init db fates)).2.db = db ∧
    calls .commit (transactionExample (World.init db fates)).2.trace = 0 ∧
    calls .rollback (transactionExample (World.init db fates)).2.trace = 1 := by
  suffices hs : (transactionExample (World.init db fates)).2.db = db ∧
      calls .commit (transactionExample (World.init db fates)).2.trace = 0 ∧
      calls .rollback (transactionExample (World.init db fates)).2.trace = 1 by
    exact ⟨by rw [hs.1], hs⟩
  revert h1 h2
  unfold transactionExample
  simp only [bind_def, pure_def]
  generalize hw1 : (⟨db, none, fates, [.log [.str "\n=== Example 8: Transaction Example ==="]], []⟩ : World) = w1
  have e1 : ∀ (k : Unit → M Js) (h : Err → M Js),
      M.tryCatch (M.bind (consoleLog [.str "\n=== Example 8: Transaction Example ==="]) k) h
        (World.init db fates) = M.tryCatch (k ()) h w1 := by
    intro k h
    rw [← hw1]
    rfl
  rw [e1]
  have t1 : w1.trace = [] := by rw [← hw1]
  have d1 : w1.db = db := by rw [← hw1]
  clear e1 hw1
  obtain ⟨d2, t2⟩ := connect_out w1
  rcases h2 : connect w1 with ⟨r2, w2⟩
  rw [h2, t1] at t2
  rw [h2, d1] at d2
  simp only at t2 d2
  cases r2 with
  | error e =>
    rw [tryCatch_of_error (bind_of_error h2)]
    simp [consoleError, M.bind, M.pure, t2]
  | ok u2 =>
    rw [tryCatch_bind_of_ok h2]
    obtain ⟨d3, t3⟩ := begin_out w2
    rcases h3 : begin w2 with ⟨r3, w3⟩
    rw [h3, t2] at t3
    rw [h3, d2] at d3
    simp only at t3 d3
    cases r3 with
    | error e =>
      rw [tryCatch_of_error (bind_of_error h3)]
      simp [consoleError, M.bind, M.pure, t3, isOk]
    | ok u3 =>
      rw [tryCatch_bind_of_ok h3]
      obtain ⟨d4, t4⟩ := queryTx_out .insertInfo
        (input "name" (.varChar 50) (.text "Transaction User 1") []) w3
      rcases h4 : queryTx .insertInfo
        (input "name" (.varChar 50) (.text "Transaction User 1") []) w3 with ⟨r4, w4⟩
      rw [h4, t3] at t4
      rw [h4, d3] at d4
      simp only at t4 d4
      cases r4 with
      | error e =>
        generalize hout : M.tryCatch _ _ w3 = out
        obtain ⟨-, ok, rest, ht, -, -⟩ :=
          transaction_recover e w3 w4 _ (bind_of_error h4) out hout.symm
        rw [ht, t4]
        simp [isOk]
      | ok u4 =>
        rw [nested_congr (bind_of_ok h4)]
        obtain ⟨d5, t5⟩ := queryTx_out .insertInfo
          (input "name" (.varChar 50) (.text "Transaction User 2") []) w4
        rcases h5 : queryTx .insertInfo
          (input "name" (.varChar 50) (.text "Transaction User 2") []) w4 with ⟨r5, w5⟩
        rw [h5, t4] at t5
        rw [h5, d4] at d5
        simp only at t5 d5
        cases r5 with
        | error e =>
          generalize hout : M.tryCatch _ _ w4 = out
          obtain ⟨hd, ok, rest, ht, hc, hr⟩ :=
            transaction_recover e w4 w5 _ (bind_of_error h5) out hout.symm
          intro _ _
          rw [hd, ht, t5, d5]
          refine ⟨rfl, ?_, ?_⟩
          · rw [calls_split, hc]
            simp [calls]
          · rw [calls_split, hr]
            simp [calls]
        | ok u5 =>
          rw [nested_congr (bind_of_ok h5)]
          have hk : Keeps extendsTrace
              (M.tryCatch
                (M.bind
                  (M.tryCatch
                    (M.bind commit fun _ =>
                      consoleLog [.str "Transaction completed successfully!"])
                    fun err =>
                      M.bind rollback fun _ =>
                        consoleError
                          [.str "Transaction rolled back due to error:", .errMessage err])
                  fun _ => M.bind close fun _ => M.pure Js.undefined)
                (fun err =>
                  M.bind (consoleError [.str "Transaction failed:", .errMessage err]) fun _ =>
                    M.pure Js.undefined)) := by
            repeat first
              | exact keeps_pure extendsTrace_refl _
              | exact consoleLog_extendsTrace _
              | exact consoleError_extendsTrace _
              | exact driverStep_extendsTrace commit_step
              | exact driverStep_extendsTrace rollback_step
              | exact driverStep_extendsTrace close_step
              | apply keeps_tryCatch extendsTrace_trans
              | apply keeps_bind extendsTrace_trans
              | intro _
          obtain ⟨rest, ht⟩ := hk w5
          rw [ht, t5]
          simp [isOk]


/-- Witness for C2 on `exampleDb`: the driver fails the second insert. -/
theorem transaction_atomic_witness :
    (transactionExample (World.init exampleDb [.ok, .ok, .ok, .fail])).2.trace.get? 2
      = some ⟨.query, true⟩ ∧
    (transactionExample (World.init exampleDb [.ok, .ok, .ok, .fail])).2.trace.get? 3
      = some ⟨.query, false⟩ ∧
    (transactionExample (World.init exampleDb [.ok, .ok, .ok, .fail])).2.db.info
      = exampleDb.info ∧
    (transactionExample (World.init exampleDb [.ok, .ok, .ok, .fail])).2.db = exampleDb ∧
    calls .commit (transactionExample (World.init exampleDb [.ok, .ok, .ok, .fail])).2.trace = 0 ∧
    calls .rollback (transactionExample (World.init exampleDb [.ok, .ok, .ok, .fail])).2.trace
      = 1 :=
  ⟨by decide, by decide,
    transaction_atomic exampleDb [.ok, .ok, .ok, .fail] (by decide) (by decide)⟩

/-! ## Setup -/

theorem byteLength_cons (cp : List (Char × Nat)) (c : Char) (l : List Char) :
    byteLength cp (c :: l) = byteWidth cp c + byteLength cp l := by
  simp [byteLength]

theorem cutBytes_byteLength (cp : List (Char × Nat)) (n : Nat) (l : List Char) :
    byteLength cp (cutBytes cp n l) ≤ n := by
  induction l generalizing n with
  | nil => simp [cutBytes, byteLength]
  | cons c rest ih =>
    unfold cutBytes
    split
    · rw [byteLength_cons]
      have := ih (n - byteWidth cp c)
      omega
    · simp [byteLength]

theorem cutBytes_of_fits (cp : List (Char × Nat)) (n : Nat) (l : List Char)
    (h : byteLength cp l ≤ n) : cutBytes cp n l = l := by
  induction l generalizing n with
  | nil => rfl
  | cons c rest ih =>
    rw [byteLength_cons] at h
    unfold cutBytes
    rw [if_pos (by omega), ih (n - byteWidth cp c) (by omega)]

/-- A `varchar(n)` variable never holds more than `n` bytes. -/
theorem toVarChar_byteLength (cp : List (Char × Nat)) (n : Nat) (s : String) :
    byteLength cp (toVarChar cp n s).data ≤ n :=
  cutBytes_byteLength cp n _

/-- A text that fits a `varchar(n)` variable is held unchanged. -/
theorem toVarChar_of_fits (cp : List (Char × Nat)) (n : Nat) (s : String)
    (h : fitsVarChar cp n s = true) : toVarChar cp n s = s := by
  unfold fitsVarChar at h
  rw [Bool.and_eq_true, List.all_eq_true, decide_eq_true_eq] at h
  have hm : s.data.map (toCodePage cp) = s.data := by
    conv_rhs => rw [← List.map_id s.data]
    apply List.map_congr_left
    intro c hc
    simpa using h.1 c hc
  unfold toVarChar
  rw [hm, cutBytes_of_fits cp n s.data h.2]

theorem consoleTable_sameDb (rs : Recordset) : Keeps sameDb (consoleTable rs) := fun _ => rfl

theorem okPost_pure {α : Type} (P : Db → Prop) (a : α) : OkPost P P (M.pure a) :=
  fun _ h _ => h

theorem okPost_bind {α β : Type} {P Q R : Db → Prop} {m : M α} {f : α → M β}
    (hm : OkPost P Q m) (hf : ∀ a, OkPost Q R (f a)) : OkPost P R (M.bind m f) := by
  intro w hp
  have h1 := hm w hp
  unfold M.bind
  rcases h : m w with ⟨r, w'⟩
  rw [h] at h1
  cases r with
  | ok a => exact hf a w' (h1 rfl)
  | error e =>
    intro hok
    simp [isOk] at hok

theorem okPost_weaken {α : Type} {P Q R : Db → Prop} {m : M α}
    (h : OkPost P Q m) (hq : ∀ d, Q d → R d) : OkPost P R m :=
  fun w hp hok => hq _ (h w hp hok)

theorem okPost_of_sameDb {α : Type} (P : Db → Prop) {m : M α} (h : Keeps sameDb m) :
    OkPost P P m := by
  intro w hp _
  rw [h w]
  exact hp

/-- A query that returns has run its statement on the database it found. -/
theorem okPost_query (P : Db → Prop) (stmt : Stmt) (ps : Params) :
    OkPost P (fun d => ∃ d0 rs, P d0 ∧ d0.exec ps stmt = .ok (rs, d)) (query stmt ps) := by
  intro w hp
  have h1 := nextFate_db w
  unfold query
  rcases hf : nextFate w with ⟨f, w'⟩
  rw [hf] at h1
  simp only at h1
  cases f <;> rcases hx : w'.db.exec ps stmt with msg | ⟨rs, d⟩ <;>
    simp [isOk, record, hx] <;> exact ⟨w.db, hp, _, h1 ▸ hx⟩

theorem insertInfoRows_seed (cp : List (Char × Nat)) :
    insertInfoRows cp infoSeed ⟨[], 1⟩ = .ok seededInfo := by
  simp [insertInfoRows, infoSeed, seededInfo, byteLength, byteWidth]

theorem insertUserRows_seed (cp : List (Char × Nat)) (now : Nat) :
    insertUserRows cp now usersSeed ⟨[], 1⟩ = .ok (seededUsers now) := by
  simp [insertUserRows, usersSeed, seededUsers, byteLength, byteWidth]

theorem exec_insertInfoValues_seed (d : Db) (h : d.info = some ⟨[], 1⟩) :
    d.exec [] (.insertInfoValues infoSeed) = .ok ([], { d with info := some seededInfo }) := by
  simp only [Db.exec, Db.infoTable, h, bind, Except.bind]
  rw [insertInfoRows_seed]
  rfl

theorem exec_insertUsersValues_seed (d : Db) (h : d.users = some ⟨[], 1⟩) :
    d.exec [] (.insertUsersValues usersSeed) =
      .ok ([], { d with users := some (seededUsers d.now) }) := by
  simp only [Db.exec, Db.usersTable, h, bind, Except.bind]
  rw [insertUserRows_seed]
  rfl

set_option maxHeartbeats 1000000 in
/-- The run of `setupDatabase` in which no driver call is made to fail: all twelve
driver calls return. -/
theorem setupDatabase_run (db : Db) :
    (setupDatabase (World.init db [])).2.trace =
      [⟨.connect, true⟩, ⟨.query, true⟩, ⟨.query, true⟩, ⟨.query, true⟩, ⟨.query, true⟩,
       ⟨.query, true⟩, ⟨.query, true⟩, ⟨.query, true⟩, ⟨.query, true⟩, ⟨.query, true⟩,
       ⟨.query, true⟩, ⟨.close, true⟩] := by
  simp [setupDatabase, M.bind, M.tryCatch, M.pure, consoleLog, consoleTable, connect, close,
    query, nextFate, record, World.init, Db.exec, Db.infoTable, Db.usersTable,
    insertInfoRows_seed, insertUserRows_seed, firstField, deliver, bind, Except.bind, pure,
    Except.pure]

theorem setupDatabase_quiet (db : Db) :
    loggedErrors (setupDatabase (World.init db [])).2.console = [] := by
  have h := (setupDatabase_resolvesReportingOnce db []).2
  rw [setupDatabase_run db] at h
  exact List.length_eq_zero.mp h

set_option maxRecDepth 4000 in
/-- The try block of `setupDatabase`, when it returns, has left both tables with
exactly their seed rows, whatever the database held before. -/
theorem setupDatabase_post (db : Db) :
    ∃ g h, setupDatabase = M.bind (consoleLog [.str "Starting database setup...\n"])
        (fun _ => M.tryCatch g h) ∧ Reports h ∧
      OkPost (fun d => d = db)
        (fun d => d.info = some seededInfo ∧ d.users = some (seededUsers db.now)) g := by
  unfold setupDatabase
  simp only [bind_def, pure_def]
  refine ⟨_, _, rfl, setupHandler_reports, ?_⟩
  refine okPost_weaken (Q := ?Q) ?h1 ?h2
  case h1 =>
    repeat first
      | exact okPost_pure _ _
      | exact okPost_of_sameDb _ (consoleLog_sameDb _)
      | exact okPost_of_sameDb _ (consoleTable_sameDb _)
      | exact okPost_of_sameDb _ connect_sameDb
      | exact okPost_of_sameDb _ close_sameDb
      | exact okPost_of_sameDb _ (firstField_keeps sameDb_refl _ _)
      | exact okPost_query _ _ _
      | apply okPost_bind
      | intro _
  case h2 =>
    intro d hd
    obtain ⟨d9, r9, ⟨d8, r8, ⟨d7, r7, ⟨d6, r6, ⟨d5, r5, ⟨d4, r4, ⟨d3, r3, ⟨d2, r2, ⟨d1, r1,
      ⟨d0, r0, rfl, e0⟩, e1⟩, e2⟩, e3⟩, e4⟩, e5⟩, e6⟩, e7⟩, e8⟩, e9⟩ := hd
    simp only [Db.exec, pure, Except.pure, Except.ok.injEq, Prod.mk.injEq] at e0
    obtain ⟨-, rfl⟩ := e0
    simp only [Db.exec, pure, Except.pure, Except.ok.injEq, Prod.mk.injEq] at e1
    obtain ⟨-, rfl⟩ := e1
    rw [exec_insertInfoValues_seed _ rfl] at e2
    simp only [Except.ok.injEq, Prod.mk.injEq] at e2
    obtain ⟨-, rfl⟩ := e2
    simp only [Db.exec, pure, Except.pure, Except.ok.injEq, Prod.mk.injEq] at e3
    obtain ⟨-, rfl⟩ := e3
    simp only [Db.exec, pure, Except.pure, Except.ok.injEq, Prod.mk.injEq] at e4
    obtain ⟨-, rfl⟩ := e4
    rw [exec_insertUsersValues_seed _ rfl] at e5
    simp only [Except.ok.injEq, Prod.mk.injEq] at e5
    obtain ⟨-, rfl⟩ := e5
    simp only [Db.exec, Db.infoTable, bind, Except.bind, pure, Except.pure, Except.ok.injEq,
      Prod.mk.injEq] at e6
    obtain ⟨-, rfl⟩ := e6
    simp only [Db.exec, Db.usersTable, bind, Except.bind, pure, Except.pure, Except.ok.injEq,
      Prod.mk.injEq] at e7
    obtain ⟨-, rfl⟩ := e7
    simp only [Db.exec, Db.infoTable, bind, Except.bind, pure, Except.pure, Except.ok.injEq,
      Prod.mk.injEq] at e8
    obtain ⟨-, rfl⟩ := e8
    simp only [Db.exec, Db.usersTable, bind, Except.bind, pure, Except.pure, Except.ok.injEq,
      Prod.mk.injEq] at e9
    obtain ⟨-, rfl⟩ := e9
    exact ⟨rfl, rfl⟩

/-- Every run of `setupDatabase` that reports no error, whatever the fates of
its driver calls, leaves both tables with exactly their seed rows. -/
theorem setupDatabase_seeds (db : Db) (fates : List Fate)
    (hq : loggedErrors (setupDatabase (World.init db fates)).2.console = []) :
    (setupDatabase (World.init db fates)).2.db.info = some seededInfo ∧
    (setupDatabase (World.init db fates)).2.db.users = some (seededUsers db.now) := by
  obtain ⟨g, h, hs, hr, hp⟩ := setupDatabase_post db
  rw [hs] at hq ⊢
  have e1 : M.bind (consoleLog [.str "Starting database setup...\n"])
      (fun _ => M.tryCatch g h) (World.init db fates) =
      M.tryCatch g h ⟨db, none, fates, [.log [.str "Starting database setup...\n"]], []⟩ := rfl
  rw [e1] at hq ⊢
  have hpost := hp ⟨db, none, fates, [.log [.str "Starting database setup...\n"]], []⟩ rfl
  unfold M.tryCatch at hq ⊢
  rcases hg : g ⟨db, none, fates, [.log [.str "Starting database setup...\n"]], []⟩
    with ⟨r, w'⟩
  rw [hg] at hq hpost
  cases r with
  | ok a => exact hpost rfl
  | error e =>
    simp only at hq
    rw [(hr e w').1] at hq
    simp at hq

/-- C5: from every database (tables `info` and `users` absent, empty or holding
any rows) and for every fate of the driver calls, a fully successful run of
`setupDatabase` (one that reports no error) leaves `info` with exactly the ten
seed rows, ids 1 to 10 in the listed order, and `users` with exactly the five
seed rows; a second fully successful run, at any later clock, leaves the same
`info` and the same `users` up to `created_date`.  From every database the run
in which no driver call is made to fail is fully successful. -/
theorem setup_idempotent (db : Db) (fates fates' : List Fate) (later : Nat)
    (h1 : loggedErrors (setupDatabase (World.init db fates)).2.console = [])
    (h2 : loggedErrors (setupDatabase (World.init
      { (setupDatabase (World.init db fates)).2.db with now := later } fates')).2.console = []) :
    (setupDatabase (World.init db fates)).2.db.info = some seededInfo ∧
    (setupDatabase (World.init db fates)).2.db.users = some (seededUsers db.now) ∧
    (setupDatabase (World.init
        { (setupDatabase (World.init db fates)).2.db with now := later } fates')).2.db.info
      = (setupDatabase (World.init db fates)).2.db.info ∧
    (setupDatabase (World.init
        { (setupDatabase (World.init db fates)).2.db with now := later } fates')).2.db.users.map
          withoutDates
      = (setupDatabase (World.init db fates)).2.db.users.map withoutDates ∧
    loggedErrors (setupDatabase (World.init db [])).2.console = [] ∧
    (∀ e ∈ (setupDatabase (World.init db [])).2.trace, e.ok = true) := by
  obtain ⟨hi, hu⟩ := setupDatabase_seeds db fates h1
  obtain ⟨hi2, hu2⟩ := setupDatabase_seeds _ fates' h2
  refine ⟨hi, hu, ?_, ?_, setupDatabase_quiet db, ?_⟩
  · rw [hi2, hi]
  · rw [hu2, hu]
    rfl
  · rw [setupDatabase_run db]
    decide

/-- Witness for C5 on `exampleDb`: two runs in which no driver call fails. -/
theorem setup_idempotent_witness :
    loggedErrors (setupDatabase (World.init exampleDb [])).2.console = [] ∧
    loggedErrors (setupDatabase (World.init
      { (setupDatabase (World.init exampleDb [])).2.db with now := 60 } [])).2.console = [] ∧
    (setupDatabase (World.init exampleDb [])).2.db.info = some seededInfo ∧
    (setupDatabase (World.init exampleDb [])).2.db.users = some (seededUsers exampleDb.now) ∧
    (setupDatabase (World.init
        { (setupDatabase (World.init exampleDb [])).2.db with now := 60 } [])).2.db.info
      = (setupDatabase (World.init exampleDb [])).2.db.info ∧
    (setupDatabase (World.init
        { (setupDatabase (World.init exampleDb [])).2.db with now := 60 } [])).2.db.users.map
          withoutDates
      = (setupDatabase (World.init exampleDb [])).2.db.users.map withoutDates ∧
    loggedErrors (setupDatabase (World.init exampleDb [])).2.console = [] ∧
    (∀ e ∈ (setupDatabase (World.init exampleDb [])).2.trace, e.ok = true) :=
  ⟨setupDatabase_quiet exampleDb, setupDatabase_quiet _,
    setup_idempotent exampleDb [] [] 60 (setupDatabase_quiet exampleDb) (setupDatabase_quiet _)⟩

/-! ## Insert, then read -/

theorem insertRecord_run (name : String) (db : Db) (t : Table InfoRow) (hi : db.info = some t)
    (hk : t.rows.any (fun r => r.id == t.nextId) = false) :
    insertRecord name (World.init db []) =
      (.ok (.cell (.int t.nextId)),
        { db := { db with info := some ⟨t.rows ++ [⟨t.nextId, toVarChar db.codePage 50 name⟩], t.nextId + 1⟩ }
          tx := none
          fates := []
          console := [.log [.str "\n=== Example 3: Insert New Record ==="],
            .log [.str "Successfully inserted! New record ID:", .cell (.int t.nextId)]]
          trace := [⟨.connect, true⟩, ⟨.query, true⟩, ⟨.close, true⟩] }) := by
  have hl : ¬ 50 < byteLength db.codePage (toVarChar db.codePage 50 name).data := by
    have := toVarChar_byteLength db.codePage 50 name
    omega
  simp [insertRecord, M.tryCatch, M.bind, M.pure, consoleLog, connect, close, query, nextFate,
    record, World.init, Db.exec, Db.infoTable, input, castParam, paramText, List.lookup, hi,
    insertInfoRows, hl, hk, firstField, deliver, bind, Except.bind, pure, Except.pure]

theorem insertRecord_fails_without_table (name : String) (db : Db) (hi : db.info = none) :
    (insertRecord name (World.init db [])).2.trace = [⟨.connect, true⟩, ⟨.query, false⟩] := by
  simp [insertRecord, M.tryCatch, M.bind, M.pure, consoleLog, consoleError, connect, query,
    nextFate, record, World.init, Db.exec, Db.infoTable, input, castParam, paramText,
    List.lookup, hi, bind, Except.bind]

theorem insertRecord_fails_on_key (name : String) (db : Db) (t : Table InfoRow)
    (hi : db.info = some t) (hk : t.rows.any (fun r => r.id == t.nextId) = true) :
    (insertRecord name (World.init db [])).2.trace = [⟨.connect, true⟩, ⟨.query, false⟩] := by
  have hl : ¬ 50 < byteLength db.codePage (toVarChar db.codePage 50 name).data := by
    have := toVarChar_byteLength db.codePage 50 name
    omega
  simp [insertRecord, M.tryCatch, M.bind, M.pure, consoleLog, consoleError, connect, query,
    nextFate, record, World.init, Db.exec, Db.infoTable, input, castParam, paramText,
    List.lookup, hi, insertInfoRows, hl, hk, bind, Except.bind]

theorem getRecordById_run (id : Int) (db : Db) (tx : Option Db) (console : List Out)
    (trace : List Event) (t : Table InfoRow) (hi : db.info = some t) :
    (getRecordById id ⟨db, tx, [], console, trace⟩).2 =
      { db := db
        tx := none
        fates := []
        console := console ++ [.log [.str "\n=== Example 2: Get Record By ID ==="],
          if (t.rows.filter fun r => r.id == id).length > 0 then
            .log [.str "Found record:",
              firstRow ((t.rows.filter fun r => r.id == id).map InfoRow.toRow)]
          else .log [.str "No record found with id:", .num id]]
        trace := trace ++ [⟨.connect, true⟩, ⟨.query, true⟩, ⟨.close, true⟩] } := by
  by_cases h : 0 < (t.rows.filter fun r => r.id == id).length <;>
    simp [getRecordById, M.tryCatch, M.bind, M.pure, consoleLog, connect, close, query,
      nextFate, record, Db.exec, Db.infoTable, input, castParam, paramInt, List.lookup, hi,
      deliver, bind, Except.bind, pure, Except.pure, h]

theorem filter_fresh_key (rows : List InfoRow) (id : Int) (name : String)
    (hk : rows.any (fun r => r.id == id) = false) :
    (rows ++ [(⟨id, name⟩ : InfoRow)]).filter (fun r => r.id == id) = [⟨id, name⟩] := by
  have h : rows.filter (fun r => r.id == id) = [] := by
    rw [List.filter_eq_nil_iff]
    intro r hr
    have := List.any_eq_false.mp hk r hr
    simpa using this
  simp [List.filter_append, h]

/-- C6 (as stated, refuted): a name of 51 ASCII characters, 51 bytes, is inserted
without any failing call, and the row read back by the returned identifier holds
only its first 50 bytes. -/
theorem long_name_is_cut :
    (insertRecord longName (World.init exampleDb [])).1 = .ok (.cell (.int 3)) ∧
    (insertRecord longName (World.init exampleDb [])).2.trace =
      [⟨.connect, true⟩, ⟨.query, true⟩, ⟨.close, true⟩] ∧
    (getRecordById 3 (insertRecord longName (World.init exampleDb [])).2).2.trace =
      [⟨.connect, true⟩, ⟨.query, true⟩, ⟨.close, true⟩, ⟨.connect, true⟩, ⟨.query, true⟩,
       ⟨.close, true⟩] ∧
    (getRecordById 3 (insertRecord longName (World.init exampleDb [])).2).2.console.getLast? =
      some (.log [.str "Found record:",
        .row [("id", .int 3),
          ("name", .text "01234567890123456789012345678901234567890123456789")]]) ∧
    "01234567890123456789012345678901234567890123456789" ≠ longName :=
  ⟨rfl, by decide⟩

/-- C6 (amended): on the execution in which the driver makes no call fail, when
every driver call of `insertRecord name` succeeds (the server raises no error), it
returns an identifier that was not a key of `info` before the call, and a
following `getRecordById` of that identifier takes the Found record branch with
the row of that identifier whose name is the inserted name as a `varchar(50)`
variable holds it: converted to the code page of the database and cut to 50
bytes.  That is the inserted name itself when the code page holds each of its
characters and it takes at most 50 bytes. -/
theorem insert_then_read (name : String) (db : Db)
    (hok : ∀ e ∈ (insertRecord name (World.init db [])).2.trace, e.ok = true) :
    ∃ id, (insertRecord name (World.init db [])).1 = .ok (.cell (.int id)) ∧
      (∀ t, db.info = some t → ∀ r ∈ t.rows, r.id ≠ id) ∧
      (getRecordById id (insertRecord name (World.init db [])).2).2.console =
        (insertRecord name (World.init db [])).2.console ++
          [.log [.str "\n=== Example 2: Get Record By ID ==="],
           .log [.str "Found record:",
             .row [("id", .int id), ("name", .text (toVarChar db.codePage 50 name))]]] ∧
      (fitsVarChar db.codePage 50 name = true → toVarChar db.codePage 50 name = name) := by
  cases hi : db.info with
  | none =>
    rw [insertRecord_fails_without_table name db hi] at hok
    have := hok ⟨.query, false⟩ (by simp)
    simp at this
  | some t =>
    cases hk : t.rows.any (fun r => r.id == t.nextId) with
    | true =>
      rw [insertRecord_fails_on_key name db t hi hk] at hok
      have := hok ⟨.query, false⟩ (by simp)
      simp at this
    | false =>
      rw [insertRecord_run name db t hi hk]
      refine ⟨t.nextId, rfl, ?_, ?_, toVarChar_of_fits db.codePage 50 name⟩
      · intro t' ht' r hr hid
        have ht : t = t' := by simpa using ht'
        subst ht
        have := List.any_eq_false.mp hk r hr
        simp [hid] at this
      · simp only
        rw [getRecordById_run t.nextId _ _ _ _ _ rfl, filter_fresh_key _ _ _ hk]
        simp [firstRow, InfoRow.toRow]

/-- Witness for C6 on `exampleDb`. -/
theorem insert_then_read_witness :
    (∀ e ∈ (insertRecord "Test User" (World.init exampleDb [])).2.trace, e.ok = true) ∧
    ∃ id, (insertRecord "Test User" (World.init exampleDb [])).1 = .ok (.cell (.int id)) ∧
      (∀ t, exampleDb.info = some t → ∀ r ∈ t.rows, r.id ≠ id) ∧
      (getRecordById id (insertRecord "Test User" (World.init exampleDb [])).2).2.console =
        (insertRecord "Test User" (World.init exampleDb [])).2.console ++
          [.log [.str "\n=== Example 2: Get Record By ID ==="],
           .log [.str "Found record:",
             .row [("id", .int id), ("name", .text (toVarChar exampleDb.codePage 50 "Test User"))]]] ∧
      (fitsVarChar exampleDb.codePage 50 "Test User" = true →
        toVarChar exampleDb.codePage 50 "Test User" = "Test User") :=
  ⟨by decide, insert_then_read "Test User" exampleDb (by decide)⟩

/-! ## Update and delete, then read -/

theorem updateRecord_run (id : Int) (name : String) (db : Db) (t : Table InfoRow)
    (hi : db.info = some t) :
    updateRecord id name (World.init db []) =
      (.ok .undefined,
        { db := { db with info := some { t with rows := t.rows.map fun r =>
                    if r.id == id then { r with name := toVarChar db.codePage 50 name } else r } }
          tx := none
          fates := []
          console := [.log [.str "\n=== Example 4: Update Record ==="],
            if 0 < (t.rows.filter fun r => r.id == id).length then
              .log [.str ("Successfully updated record ID " ++ toString id ++ " to \"" ++ name
                ++ "\"")]
            else .log [.str "No record found with id:", .num id]]
          trace := [⟨.connect, true⟩, ⟨.query, true⟩, ⟨.close, true⟩] }) := by
  have hl : ¬ 50 < byteLength db.codePage (toVarChar db.codePage 50 name).data := by
    have := toVarChar_byteLength db.codePage 50 name
    omega
  by_cases h : 0 < (t.rows.filter fun r => r.id == id).length <;>
    simp [updateRecord, M.tryCatch, M.bind, M.pure, consoleLog, connect, close, query,
      nextFate, record, World.init, Db.exec, Db.infoTable, input, castParam, paramInt,
      paramText, List.lookup, hi, hl, firstField, deliver, bind, Except.bind, pure,
      Except.pure, Js.gtZero, h]

theorem updateRecord_fails_without_table (id : Int) (name : String) (db : Db)
    (hi : db.info = none) :
    (updateRecord id name (World.init db [])).2.trace =
      [⟨.connect, true⟩, ⟨.query, false⟩] := by
  simp [updateRecord, M.tryCatch, M.bind, M.pure, consoleLog, consoleError, connect, query,
    nextFate, record, World.init, Db.exec, Db.infoTable, input, castParam, paramInt, paramText,
    List.lookup, hi, bind, Except.bind]

theorem deleteRecord_run (id : Int) (db : Db) (t : Table InfoRow) (hi : db.info = some t) :
    deleteRecord id (World.init db []) =
      (.ok .undefined,
        { db := { db with info := some { t with rows := t.rows.filter fun r => !(r.id == id) } }
          tx := none
          fates := []
          console := [.log [.str "\n=== Example 5: Delete Record ==="],
            if 0 < (t.rows.filter fun r => r.id == id).length then
              .log [.str "Successfully deleted record ID:", .num id]
            else .log [.str "No record found with id:", .num id]]
          trace := [⟨.connect, true⟩, ⟨.query, true⟩, ⟨.close, true⟩] }) := by
  by_cases h : 0 < (t.rows.filter fun r => r.id == id).length <;>
    simp [deleteRecord, M.tryCatch, M.bind, M.pure, consoleLog, connect, close, query,
      nextFate, record, World.init, Db.exec, Db.infoTable, input, castParam, paramInt,
      List.lookup, hi, firstField, deliver, bind, Except.bind, pure, Except.pure, Js.gtZero, h]

theorem deleteRecord_fails_without_table (id : Int) (db : Db) (hi : db.info = none) :
    (deleteRecord id (World.init db [])).2.trace = [⟨.connect, true⟩, ⟨.query, false⟩] := by
  simp [deleteRecord, M.tryCatch, M.bind, M.pure, consoleLog, consoleError, connect, query,
    nextFate, record, World.init, Db.exec, Db.infoTable, input, castParam, paramInt,
    List.lookup, hi, bind, Except.bind]

theorem getAllRecords_run (db : Db) (tx : Option Db) (console : List Out)
    (trace : List Event) (t : Table InfoRow) (hi : db.info = some t) :
    (getAllRecords ⟨db, tx, [], console, trace⟩).2 =
      { db := db
        tx := none
        fates := []
        console := console ++ [.log [.str "\n=== Example 1: Get All Records ==="],
          .log [.str "Total records:", .num t.rows.length],
          .log [.rows (t.rows.map InfoRow.toRow)]]
        trace := trace ++ [⟨.connect, true⟩, ⟨.query, true⟩, ⟨.close, true⟩] } := by
  simp [getAllRecords, M.tryCatch, M.bind, M.pure, consoleLog, connect, close, query,
    nextFate, record, Db.exec, Db.infoTable, hi, deliver, bind, Except.bind, pure, Except.pure]

theorem filter_updated (rows : List InfoRow) (id : Int) (s : String) :
    (rows.map fun r => if r.id == id then { r with name := s } else r).filter
        (fun r => r.id == id)
      = (rows.filter fun r => r.id == id).map fun _ => ⟨id, s⟩ := by
  induction rows with
  | nil => rfl
  | cons r rest ih =>
    by_cases h : r.id = id
    · simp [List.filter_cons, h]
      simpa using ih
    · simp [List.filter_cons, h]
      simpa using ih

theorem map_untouched (rows : List InfoRow) (id : Int) (s : String)
    (h : ∀ r ∈ rows, r.id ≠ id) :
    (rows.map fun r => if r.id == id then { r with name := s } else r) = rows := by
  induction rows with
  | nil => rfl
  | cons r rest ih =>
    have h1 : r.id ≠ id := h r (by simp)
    have h2 : ∀ x ∈ rest, x.id ≠ id := fun x hx => h x (by simp [hx])
    simp [h1]
    simpa using ih h2

theorem filter_pos_of_key (rows : List InfoRow) (id : Int) (h : ∃ r ∈ rows, r.id = id) :
    0 < (rows.filter fun r => r.id == id).length := by
  obtain ⟨r, hr, hid⟩ := h
  apply List.length_pos_of_mem (a := r)
  simp [List.mem_filter, hr, hid]

theorem filter_zero_of_no_key (rows : List InfoRow) (id : Int) (h : ∀ r ∈ rows, r.id ≠ id) :
    (rows.filter fun r => r.id == id) = [] := by
  rw [List.filter_eq_nil_iff]
  intro r hr
  simpa using h r hr

theorem filter_all_of_no_key (rows : List InfoRow) (id : Int) (h : ∀ r ∈ rows, r.id ≠ id) :
    (rows.filter fun r => !(r.id == id)) = rows := by
  rw [List.filter_eq_self]
  intro r hr
  simpa using h r hr

theorem db_info_eta (db : Db) (t : Table InfoRow) (hi : db.info = some t) :
    { db with info := some t } = db := by
  cases db
  simp at hi
  simp [hi]

/-- C7 (as stated, refuted): updating row 1 to a name of 51 ASCII characters,
51 bytes, succeeds, and the row read back holds only the first 50 bytes of the
new name. -/
theorem long_update_is_cut :
    (updateRecord 1 longName (World.init exampleDb [])).2.trace =
      [⟨.connect, true⟩, ⟨.query, true⟩, ⟨.close, true⟩] ∧
    (getRecordById 1 (updateRecord 1 longName (World.init exampleDb [])).2).2.console.getLast? =
      some (.log [.str "Found record:",
        .row [("id", .int 1),
          ("name", .text "01234567890123456789012345678901234567890123456789")]]) ∧
    "01234567890123456789012345678901234567890123456789" ≠ longName := by
  decide

/-- C7 (amended): on the execution in which the driver makes no call fail, when
every driver call of `updateRecord id name` succeeds (the server raises no
error), the table `info` exists and: if `id` is a key, the function takes the Successfully
updated branch, every row with another id is unchanged, and a following
`getRecordById id` finds a row whose name is the new name as a `varchar(50)`
variable holds it, converted to the code page of the database and cut to 50
bytes (the new name itself when the code page holds each of its characters and
it takes at most 50 bytes); if `id` is not a
key, the function takes the No record found branch (the affected-row count is
zero) and the database is unchanged. -/
theorem update_then_read (id : Int) (name : String) (db : Db)
    (hok : ∀ e ∈ (updateRecord id name (World.init db [])).2.trace, e.ok = true) :
    ∃ t, db.info = some t ∧
      ((∃ r ∈ t.rows, r.id = id) →
        (updateRecord id name (World.init db [])).2.console =
          [.log [.str "\n=== Example 4: Update Record ==="],
           .log [.str ("Successfully updated record ID " ++ toString id ++ " to \"" ++ name
             ++ "\"")]] ∧
        (updateRecord id name (World.init db [])).2.db.info =
          some { t with rows := t.rows.map fun r =>
            if r.id == id then { r with name := toVarChar db.codePage 50 name } else r } ∧
        (getRecordById id (updateRecord id name (World.init db [])).2).2.console =
          (updateRecord id name (World.init db [])).2.console ++
            [.log [.str "\n=== Example 2: Get Record By ID ==="],
             .log [.str "Found record:",
               .row [("id", .int id), ("name", .text (toVarChar db.codePage 50 name))]]]) ∧
      ((∀ r ∈ t.rows, r.id ≠ id) →
        (t.rows.filter fun r => r.id == id).length = 0 ∧
        (updateRecord id name (World.init db [])).2.console =
          [.log [.str "\n=== Example 4: Update Record ==="],
           .log [.str "No record found with id:", .num id]] ∧
        (updateRecord id name (World.init db [])).2.db = db) ∧
      (fitsVarChar db.codePage 50 name = true → toVarChar db.codePage 50 name = name) := by
  cases hi : db.info with
  | none =>
    rw [updateRecord_fails_without_table id name db hi] at hok
    have := hok ⟨.query, false⟩ (by simp)
    simp at this
  | some t =>
    refine ⟨t, rfl, ?_, ?_, toVarChar_of_fits db.codePage 50 name⟩
    · intro hkey
      have hpos := filter_pos_of_key t.rows id hkey
      rw [updateRecord_run id name db t hi]
      refine ⟨by simp [hpos], rfl, ?_⟩
      simp only
      rw [getRecordById_run id _ _ _ _ _ rfl]
      simp only
      rw [filter_updated]
      obtain ⟨r0, rest, hf⟩ := List.exists_cons_of_length_pos hpos
      rw [hf]
      simp [firstRow, InfoRow.toRow, hpos]
    · intro hno
      have hz := filter_zero_of_no_key t.rows id hno
      rw [updateRecord_run id name db t hi]
      refine ⟨by rw [hz]; rfl, by simp [hz], ?_⟩
      simp only
      rw [map_untouched t.rows id _ hno]
      exact db_info_eta db t hi

/-- Witness for C7 on `exampleDb`. -/
theorem update_then_read_witness :
    (∀ e ∈ (updateRecord 2 "Updated Test User" (World.init exampleDb [])).2.trace,
      e.ok = true) ∧
    (getRecordById 2 (updateRecord 2 "Updated Test User"
      (World.init exampleDb [])).2).2.console.getLast? =
        some (.log [.str "Found record:",
          .row [("id", .int 2), ("name", .text "Updated Test User")]]) ∧
    ∃ t, exampleDb.info = some t ∧
      ((∃ r ∈ t.rows, r.id = 2) →
        (updateRecord 2 "Updated Test User" (World.init exampleDb [])).2.console =
          [.log [.str "\n=== Example 4: Update Record ==="],
           .log [.str ("Successfully updated record ID " ++ toString (2 : Int) ++ " to \""
             ++ "Updated Test User" ++ "\"")]] ∧
        (updateRecord 2 "Updated Test User" (World.init exampleDb [])).2.db.info =
          some { t with rows := t.rows.map fun r =>
            if r.id == 2 then { r with name := toVarChar exampleDb.codePage 50 "Updated Test User" } else r } ∧
        (getRecordById 2 (updateRecord 2 "Updated Test User"
            (World.init exampleDb [])).2).2.console =
          (updateRecord 2 "Updated Test User" (World.init exampleDb [])).2.console ++
            [.log [.str "\n=== Example 2: Get Record By ID ==="],
             .log [.str "Found record:",
               .row [("id", .int 2), ("name", .text (toVarChar exampleDb.codePage 50 "Updated Test User"))]]]) ∧
      ((∀ r ∈ t.rows, r.id ≠ 2) →
        (t.rows.filter fun r => r.id == 2).length = 0 ∧
        (updateRecord 2 "Updated Test User" (World.init exampleDb [])).2.console =
          [.log [.str "\n=== Example 4: Update Record ==="],
           .log [.str "No record found with id:", .num 2]] ∧
        (updateRecord 2 "Updated Test User" (World.init exampleDb [])).2.db = exampleDb) ∧
      (fitsVarChar exampleDb.codePage 50 "Updated Test User" = true →
        toVarChar exampleDb.codePage 50 "Updated Test User" = "Updated Test User") :=
  ⟨by decide, by decide, update_then_read 2 "Updated Test User" exampleDb (by decide)⟩

/-- C8: on the execution in which the driver makes no call fail, when every
driver call of `deleteRecord id` succeeds (the server raises no error), the table
`info` exists and: if `id` is a key, the function takes the Successfully deleted branch
and a following `getAllRecords` prints exactly the previous rows without those
keyed `id`; if `id` is not a key, the affected-row count is zero, the function
takes the No record found branch, the database is unchanged and a following
`getAllRecords` prints the same rows as one run before the call. -/
theorem delete_then_read (id : Int) (db : Db)
    (hok : ∀ e ∈ (deleteRecord id (World.init db [])).2.trace, e.ok = true) :
    ∃ t, db.info = some t ∧
      ((∃ r ∈ t.rows, r.id = id) →
        (deleteRecord id (World.init db [])).2.console =
          [.log [.str "\n=== Example 5: Delete Record ==="],
           .log [.str "Successfully deleted record ID:", .num id]] ∧
        (getAllRecords (deleteRecord id (World.init db [])).2).2.console.getLast? =
          some (.log [.rows ((t.rows.filter fun r => !(r.id == id)).map InfoRow.toRow)])) ∧
      ((∀ r ∈ t.rows, r.id ≠ id) →
        (t.rows.filter fun r => r.id == id).length = 0 ∧
        (deleteRecord id (World.init db [])).2.console =
          [.log [.str "\n=== Example 5: Delete Record ==="],
           .log [.str "No record found with id:", .num id]] ∧
        (deleteRecord id (World.init db [])).2.db = db ∧
        (getAllRecords (deleteRecord id (World.init db [])).2).2.console.getLast? =
          some (.log [.rows (t.rows.map InfoRow.toRow)]) ∧
        (getAllRecords (deleteRecord id (World.init db [])).2).2.console.getLast? =
          (getAllRecords (World.init db [])).2.console.getLast?) := by
  cases hi : db.info with
  | none =>
    rw [deleteRecord_fails_without_table id db hi] at hok
    have := hok ⟨.query, false⟩ (by simp)
    simp at this
  | some t =>
    refine ⟨t, rfl, ?_, ?_⟩
    · intro hkey
      have hpos := filter_pos_of_key t.rows id hkey
      rw [deleteRecord_run id db t hi]
      refine ⟨by simp [hpos], ?_⟩
      simp only
      rw [getAllRecords_run _ _ _ _ _ rfl]
      simp
    · intro hno
      have hz := filter_zero_of_no_key t.rows id hno
      have hb : (getAllRecords (World.init db [])).2.console.getLast? =
          some (.log [.rows (t.rows.map InfoRow.toRow)]) := by
        unfold World.init
        rw [getAllRecords_run _ _ _ _ _ hi]
        simp
      rw [hb, deleteRecord_run id db t hi]
      have ha : (getAllRecords
          { db := { db with info := some { t with rows := t.rows.filter fun r => !(r.id == id) } }
            tx := none
            fates := []
            console := [.log [.str "\n=== Example 5: Delete Record ==="],
              if 0 < (t.rows.filter fun r => r.id == id).length then
                .log [.str "Successfully deleted record ID:", .num id]
              else .log [.str "No record found with id:", .num id]]
            trace := [⟨.connect, true⟩, ⟨.query, true⟩, ⟨.close, true⟩] }).2.console.getLast? =
          some (.log [.rows (t.rows.map InfoRow.toRow)]) := by
        rw [getAllRecords_run _ _ _ _ _ rfl]
        simp [filter_all_of_no_key t.rows id hno]
      refine ⟨by rw [hz]; rfl, by simp [hz], ?_, ha, ha⟩
      simp only
      rw [filter_all_of_no_key t.rows id hno]
      exact db_info_eta db t hi

/-- Witness for C8 on `exampleDb`. -/
theorem delete_then_read_witness :
    (∀ e ∈ (deleteRecord 1 (World.init exampleDb [])).2.trace, e.ok = true) ∧
    (getAllRecords (deleteRecord 1 (World.init exampleDb [])).2).2.console.getLast? =
      some (.log [.rows [[("id", .int 2), ("name", .text "Jane Smith")]]]) ∧
    ∃ t, exampleDb.info = some t ∧
      ((∃ r ∈ t.rows, r.id = 1) →
        (deleteRecord 1 (World.init exampleDb [])).2.console =
          [.log [.str "\n=== Example 5: Delete Record ==="],
           .log [.str "Successfully deleted record ID:", .num 1]] ∧
        (getAllRecords (deleteRecord 1 (World.init exampleDb [])).2).2.console.getLast? =
          some (.log [.rows ((t.rows.filter fun r => !(r.id == 1)).map InfoRow.toRow)])) ∧
      ((∀ r ∈ t.rows, r.id ≠ 1) →
        (t.rows.filter fun r => r.id == 1).length = 0 ∧
        (deleteRecord 1 (World.init exampleDb [])).2.console =
          [.log [.str "\n=== Example 5: Delete Record ==="],
           .log [.str "No record found with id:", .num 1]] ∧
        (deleteRecord 1 (World.init exampleDb [])).2.db = exampleDb ∧
        (getAllRecords (deleteRecord 1 (World.init exampleDb [])).2).2.console.getLast? =
          some (.log [.rows (t.rows.map InfoRow.toRow)]) ∧
        (getAllRecords (deleteRecord 1 (World.init exampleDb [])).2).2.console.getLast? =
          (getAllRecords (World.init exampleDb [])).2.console.getLast?) :=
  ⟨by decide, by decide, delete_then_read 1 exampleDb (by decide)⟩

/-! ## Searching with LIKE -/

theorem likeMatch_literals (col : List (Char × Char)) (l s : List Char) :
    likeMatch col (l.map Pat.lit ++ [Pat.any]) s = true ↔
      l.map (collKey col) <+: s.map (collKey col) := by
  induction l generalizing s with
  | nil =>
    simp only [List.map_nil, List.nil_append, likeMatch, List.nil_prefix, iff_true]
    rw [List.any_eq_true]
    exact ⟨[], by simp, rfl⟩
  | cons a l ih =>
    cases s with
    | nil => simp [likeMatch]
    | cons c t =>
      simp only [List.map_cons, List.cons_append, likeMatch, Bool.and_eq_true,
        List.cons_prefix_cons, ceq, List.append_eq]
      rw [ih t]
      simp

theorem likeMatch_contains (col : List (Char × Char)) (l s : List Char) :
    likeMatch col (Pat.any :: (l.map Pat.lit ++ [Pat.any])) s = true ↔
      l.map (collKey col) <:+: s.map (collKey col) := by
  simp only [likeMatch]
  rw [List.any_eq_true, List.infix_iff_prefix_suffix]
  constructor
  · rintro ⟨t, ht, hm⟩
    exact ⟨t.map (collKey col), (likeMatch_literals col l t).mp hm,
      List.IsSuffix.map _ ((List.mem_tails t s).mp ht)⟩
  · rintro ⟨t, hp, u, hu⟩
    obtain ⟨a, b, rfl, -, rfl⟩ := List.map_eq_append_iff.mp hu.symm
    exact ⟨b, (List.mem_tails b _).mpr (List.suffix_append a b),
      (likeMatch_literals col l b).mpr hp⟩

theorem parsePatFuel_literals (l : List Char) (n : Nat)
    (hm : ∀ c ∈ l, c ≠ '%' ∧ c ≠ '_' ∧ c ≠ '[') (hn : l.length + 1 ≤ n) :
    parsePatFuel n (l ++ ['%']) = some (l.map Pat.lit ++ [Pat.any]) := by
  induction l generalizing n with
  | nil =>
    obtain ⟨k, rfl⟩ : ∃ k, n = k + 1 := ⟨n - 1, by simp at hn; omega⟩
    cases k <;> simp [parsePatFuel]
  | cons a l ih =>
    obtain ⟨k, rfl⟩ : ∃ k, n = k + 1 := ⟨n - 1, by omega⟩
    have ha := hm a (by simp)
    have hl : ∀ c ∈ l, c ≠ '%' ∧ c ≠ '_' ∧ c ≠ '[' := fun c hc => hm c (by simp [hc])
    have hk : l.length + 1 ≤ k := by simp at hn; omega
    have h1 : parsePatFuel (k + 1) (a :: (l ++ ['%'])) =
        (parsePatFuel k (l ++ ['%'])).map (Pat.lit a :: ·) := by
      conv_lhs => unfold parsePatFuel
      split <;> simp_all
    simp only [List.cons_append, h1, ih k hl hk]
    rfl

theorem parsePat_contains (l : List Char) (hm : ∀ c ∈ l, c ≠ '%' ∧ c ≠ '_' ∧ c ≠ '[') :
    parsePat ('%' :: (l ++ ['%'])) = some (Pat.any :: (l.map Pat.lit ++ [Pat.any])) := by
  unfold parsePat
  simp only [List.length_cons]
  conv_lhs => unfold parsePatFuel
  simp only
  rw [parsePatFuel_literals l _ hm (by simp)]
  rfl

/-- A term that fits 48 bytes makes, with the two `%` around it, a pattern that
fits the 50 bytes of the parameter. -/
theorem fitsVarChar_pattern (cp : List (Char × Nat)) (s : String)
    (h : fitsVarChar cp 48 s = true) : fitsVarChar cp 50 ("%" ++ s ++ "%") = true := by
  unfold fitsVarChar at h ⊢
  rw [Bool.and_eq_true, List.all_eq_true, decide_eq_true_eq] at h ⊢
  have hd : ("%" ++ s ++ "%").data = '%' :: (s.data ++ ['%']) := by
    simp [String.data_append]
  have hw : byteWidth cp '%' = 1 := by
    unfold byteWidth
    rw [if_pos (by decide)]
  have hc : toCodePage cp '%' = '%' := by
    unfold toCodePage
    rw [if_pos (by decide)]
  rw [hd]
  constructor
  · intro c hmem
    rcases List.mem_cons.mp hmem with rfl | hmem
    · simp [hc]
    · rcases List.mem_append.mp hmem with hmem | hmem
      · exact h.1 c hmem
      · rw [List.mem_singleton.mp hmem]
        simp [hc]
  · have h2 := h.2
    unfold byteLength at h2 ⊢
    simp only [List.map_cons, List.map_append, List.map_nil, List.sum_cons, List.sum_append,
      List.sum_nil, hw]
    omega

theorem pattern_data (cp : List (Char × Nat)) (s : String) (h : fitsVarChar cp 48 s = true) :
    (toVarChar cp 50 ("%" ++ s ++ "%")).data = '%' :: (s.data ++ ['%']) := by
  rw [toVarChar_of_fits cp 50 _ (fitsVarChar_pattern cp s h)]
  simp [String.data_append]

/-- A search term free of `%`, `_` and `[` that the parameter holds unchanged
within 48 bytes matches exactly the names in which it occurs, characters
compared as the collation compares them. -/
theorem sqlLike_contains (col : List (Char × Char)) (cp : List (Char × Nat)) (s name : String)
    (hm : ∀ c ∈ s.data, c ≠ '%' ∧ c ≠ '_' ∧ c ≠ '[') (h : fitsVarChar cp 48 s = true) :
    sqlLike col (toVarChar cp 50 ("%" ++ s ++ "%")) name = occursIn col s name := by
  unfold sqlLike occursIn
  rw [pattern_data cp s h, parsePat_contains s.data hm]
  simp only
  rw [Bool.eq_iff_iff, likeMatch_contains]
  simp

theorem collKey_nil (l : List Char) : l.map (collKey []) = l := by
  induction l with
  | nil => rfl
  | cons c rest ih => simp [collKey, List.lookup, ih]

theorem searchByName_run (s : String) (db : Db) (t : Table InfoRow) (hi : db.info = some t) :
    (searchByName s (World.init db [])).2.console =
      [.log [.str "\n=== Example 6: Search Records ==="],
       .log [.str ("Found " ++
         toString (likeRows db.collation (toVarChar db.codePage 50 ("%" ++ s ++ "%"))
           t.rows).length
         ++ " record(s) matching \"" ++ s ++ "\":")],
       .log [.rows ((likeRows db.collation (toVarChar db.codePage 50 ("%" ++ s ++ "%"))
         t.rows).map InfoRow.toRow)]] := by
  simp [searchByName, M.tryCatch, M.bind, M.pure, consoleLog, connect, close, query,
    nextFate, record, World.init, Db.exec, Db.infoTable, input, castParam, paramText,
    List.lookup, hi, deliver, bind, Except.bind, pure, Except.pure]

/-- C3 (as stated, refuted): under a collation that compares characters by their
code, the term `_` finds both rows of `exampleDb` although no name contains an
underscore; the 49-character term `longTerm` misses the name that starts with it
and is followed by one more character; and the term `名`, a character the code
page does not hold, finds the name `Who?` in which it does not occur. -/
theorem search_is_not_literal :
    (searchByName "_" (World.init exampleDb [])).2.console.getLast? =
      some (.log [.rows [[("id", .int 1), ("name", .text "John Doe")],
                         [("id", .int 2), ("name", .text "Jane Smith")]]]) ∧
    ¬ ("_".data <:+: "John Doe".data) ∧
    (searchByName longTerm (World.init longTermDb [])).2.console.getLast? =
      some (.log [.rows [[("id", .int 2),
        ("name", .text "x0123456789012345678901234567890123456789012345678")]]]) ∧
    longTerm.data <:+: "0123456789012345678901234567890123456789012345678x".data ∧
    (searchByName "名" (World.init questionMarkDb [])).2.console.getLast? =
      some (.log [.rows [[("id", .int 1), ("name", .text "Who?")]]]) ∧
    ¬ ("名".data <:+: "Who?".data) := by
  decide

/-- C3 (amended): for every contents of the table `info`, every collation and
every code page of the database, and every search term that contains none of
`%`, `_` and `[`, whose characters the code page holds and which takes at most
48 bytes, when no driver call fails `searchByName` prints exactly the rows in
whose name the term occurs, in table order, characters compared as the collation
compares them; under the collation that compares characters by their code, to
occur is to be a literal substring. -/
theorem search_finds_substring (s : String) (db : Db) (t : Table InfoRow)
    (hi : db.info = some t)
    (hm : ∀ c ∈ s.data, c ≠ '%' ∧ c ≠ '_' ∧ c ≠ '[')
    (hfit : fitsVarChar db.codePage 48 s = true) :
    (searchByName s (World.init db [])).2.console.getLast? =
      some (.log [.rows ((t.rows.filter fun r => occursIn db.collation s r.name).map
        InfoRow.toRow)]) ∧
    (∀ name : String, occursIn [] s name = decide (s.data <:+: name.data)) := by
  constructor
  · rw [searchByName_run s db t hi]
    have h : likeRows db.collation (toVarChar db.codePage 50 ("%" ++ s ++ "%")) t.rows =
        t.rows.filter fun r => occursIn db.collation s r.name := by
      unfold likeRows
      congr 1
      funext r
      exact sqlLike_contains db.collation db.codePage s r.name hm hfit
    rw [h]
    simp
  · intro name
    unfold occursIn
    rw [collKey_nil, collKey_nil]

/-- Witness for C3: searching `exampleDb`, under a collation that ignores case,
for `john` finds `John Doe`. -/
theorem search_finds_substring_witness :
    exampleDbIgnoringCase.info = some ⟨[⟨1, "John Doe"⟩, ⟨2, "Jane Smith"⟩], 3⟩ ∧
    (∀ c ∈ "john".data, c ≠ '%' ∧ c ≠ '_' ∧ c ≠ '[') ∧
    fitsVarChar exampleDbIgnoringCase.codePage 48 "john" = true ∧
    (searchByName "john" (World.init exampleDbIgnoringCase [])).2.console.getLast? =
      some (.log [.rows [[("id", .int 1), ("name", .text "John Doe")]]]) ∧
    (searchByName "john" (World.init exampleDbIgnoringCase [])).2.console.getLast? =
      some (.log [.rows ((([⟨1, "John Doe"⟩, ⟨2, "Jane Smith"⟩] : List InfoRow).filter
        fun r => occursIn exampleDbIgnoringCase.collation "john" r.name).map
          InfoRow.toRow)]) ∧
    (∀ name : String, occursIn [] "john" name = decide ("john".data <:+: name.data)) :=
  ⟨rfl, by decide, by decide, by decide,
   search_finds_substring "john" exampleDbIgnoringCase
     ⟨[⟨1, "John Doe"⟩, ⟨2, "Jane Smith"⟩], 3⟩ rfl (by decide) (by decide)⟩

end MsSql
